import Mathlib

/-!
Verification of the bay-level slot-allocation pipeline.

Shallow embedding of the warehouse transformation pipeline:

* `slot-dimensions.ts` — the slot-type table, `getLocationSize`;
* `bay-level-transform.ts` — `getBayCode`, `buildLocationMapping`,
  `calculateBayCapacityLayout`, `aggregatePicksToBayLevel`, `formatPickDate`;
* the main transformation script — date parsing/sorting, the event cap,
  synthetic bay entries, the slot inventories, and the slot-allocation loop;
* `validate-referential-integrity.ts` — check 6 (locationSize consistency).

Modelling conventions:

* JavaScript `Map`s and `Set`s are insertion-ordered association lists
  (`mapGet` / `mapSet` / `mapUpdate`, `setHas` / `setAdd`), matching the
  ECMAScript insertion-order iteration semantics.
* JavaScript numbers appearing in the data (`0.25`, `0.50`, `1.00`,
  `locationSize` cells) are modelled as `ℚ`; all values actually occurring
  are exactly representable doubles, and all comparisons in the source are
  exact equality/order comparisons, so `ℚ` is order- and equality-faithful.
* `parseInt(s, 10)` is modelled by `jsParseInt : String → Option Int`
  (`none` = `NaN`): leading whitespace, an optional sign, then the longest
  digit prefix.
* `new Date(y, m-1, d)` is an external collaborator; it is modelled by the
  order-faithful integer encoding `jsDateCode` (months normalise exactly as
  in ECMAScript; the encoding is strictly monotone in calendar order for
  in-range dates, which is all the sort comparisons observe).  An invalid
  date (`NaN` time value) is `none`.  `new Date(0)` is `epochCode`
  (1970-01-01).
* `Array.prototype.sort`, guaranteed stable by ECMAScript, is modelled by
  the stable insertion sort `stableSort`; a comparator returning `NaN`
  compares as `+0` per the SortCompare specification, which `pickCmpLe`
  reproduces.
* The dedup key `` `${article}-${bayCode}` `` is modelled by the pair
  `(article, bayCode)`: decimal integer strings contain `'-'` only at
  position 0, so the string key is injective in the pair.
* The non-null assertion `slotUsage.get(bayCode)!` is modelled by the
  `crashed` flag of `AllocState`: reaching the assertion with a missing key
  sets the flag (the thrown `TypeError` aborts the run), and a crashed
  state absorbs every later event.
-/

namespace PickOpt

/-! ## JavaScript `Map` / `Set` as insertion-ordered association lists -/

/-- JS `Map.prototype.get`: the value at the first (unique) matching key. -/
def mapGet {κ ν : Type} [DecidableEq κ] : List (κ × ν) → κ → Option ν
  | [], _ => none
  | (a, b) :: rest, key => if a = key then some b else mapGet rest key

/-- JS `Map.prototype.set`: replace in place, or append a fresh key. -/
def mapSet {κ ν : Type} [DecidableEq κ] : List (κ × ν) → κ → ν → List (κ × ν)
  | [], key, val => [(key, val)]
  | (a, b) :: rest, key, val =>
    if a = key then (key, val) :: rest else (a, b) :: mapSet rest key val

/-- In-place mutation of the value stored under an existing key. -/
def mapUpdate {κ ν : Type} [DecidableEq κ] : List (κ × ν) → κ → (ν → ν) → List (κ × ν)
  | [], _, _ => []
  | (a, b) :: rest, key, f =>
    if a = key then (a, f b) :: rest else (a, b) :: mapUpdate rest key f

/-- JS `Map.prototype.keys()` in insertion order. -/
def mapKeys {κ ν : Type} (m : List (κ × ν)) : List κ := m.map Prod.fst

/-- Number of entries stored under a key (always 0 or 1 for maps built
with `mapSet`/`mapUpdate`). -/
def countKey {κ ν : Type} [DecidableEq κ] (m : List (κ × ν)) (k : κ) : Nat :=
  m.countP (fun e => decide (e.1 = k))

/-- JS `Set.prototype.has`. -/
def setHas {α : Type} [DecidableEq α] : List α → α → Bool
  | [], _ => false
  | b :: t, a => if b = a then true else setHas t a

/-- JS `Set.prototype.add`. -/
def setAdd {α : Type} [DecidableEq α] (l : List α) (a : α) : List α :=
  if setHas l a then l else l ++ [a]

/-! ## String and number helpers (ECMAScript semantics) -/

/-- Whitespace recognised by `String.prototype.trim` / `parseInt`
(restricted to the ASCII whitespace occurring in the data). -/
def isJsWs (c : Char) : Bool :=
  c == ' ' || c == '\t' || c == '\n' || c == '\r'

/-- JS `String.prototype.trim`. -/
def jsTrim (s : String) : String :=
  String.mk (((s.data.dropWhile isJsWs).reverse.dropWhile isJsWs).reverse)

/-- JS `String.prototype.split` with a one-character separator. -/
def splitChar (sep : Char) : List Char → List (List Char)
  | [] => [[]]
  | c :: rest =>
    let r := splitChar sep rest
    if c = sep then [] :: r
    else
      match r with
      | h :: t => (c :: h) :: t
      | [] => [[c]]

/-- JS `String.prototype.split` returning strings. -/
def splitOnCharS (sep : Char) (s : String) : List String :=
  (splitChar sep s.data).map String.mk

/-- JS `a || b` on strings (empty string is falsy). -/
def jsOr (a b : String) : String := if a = "" then b else a

/-- JS `s.startsWith(c)` for a one-character argument. -/
def jsStartsWith (s : String) (c : Char) : Bool :=
  match s.data with
  | [] => false
  | a :: _ => a == c

/-- JS `str.replace(c, d)` for one-character arguments: first occurrence only. -/
def replaceFirstChar (s : String) (c d : Char) : String :=
  String.mk (go s.data)
where
  go : List Char → List Char
    | [] => []
    | a :: t => if a = c then d :: t else a :: go t

/-- Numeric value of a digit list (most significant first). -/
def digitsToNat (ds : List Char) : Nat :=
  ds.foldl (fun a c => a * 10 + (c.toNat - 48)) 0

/-- Digit prefix of `parseInt` after the sign: `none` when empty (`NaN`). -/
def jsParseNat (cs : List Char) : Option Nat :=
  let ds := cs.takeWhile Char.isDigit
  if ds.isEmpty then none else some (digitsToNat ds)

/-- JS `parseInt(s, 10)` on a character list: skip whitespace, optional sign,
longest digit prefix; `none` is `NaN`. -/
def jsParseIntChars (cs : List Char) : Option Int :=
  match cs.dropWhile isJsWs with
  | '-' :: rest => (jsParseNat rest).map (fun n => -(n : Int))
  | '+' :: rest => (jsParseNat rest).map (fun n => (n : Int))
  | other => (jsParseNat other).map (fun n => (n : Int))

/-- JS `parseInt(s, 10)` on a string. -/
def jsParseInt (s : String) : Option Int := jsParseIntChars s.data

/-- Decimal significand of `parseFloat` (digits, optional dot, digits);
`none` when no digit is present. -/
def jsParseDecimal (cs : List Char) : Option ℚ :=
  let ip := cs.takeWhile Char.isDigit
  let rest := cs.dropWhile Char.isDigit
  match rest with
  | '.' :: rest2 =>
    let fp := rest2.takeWhile Char.isDigit
    if ip.isEmpty && fp.isEmpty then none
    else some ((digitsToNat ip : ℚ) + (digitsToNat fp : ℚ) / (10 ^ fp.length : ℚ))
  | _ => if ip.isEmpty then none else some (digitsToNat ip : ℚ)

/-- JS `parseFloat(s)` restricted to plain decimal literals (the only shape in
the client data; exponents are not modelled); `none` is `NaN`. -/
def jsParseFloat (s : String) : Option ℚ :=
  match s.data.dropWhile isJsWs with
  | '-' :: rest => (jsParseDecimal rest).map Neg.neg
  | '+' :: rest => jsParseDecimal rest
  | other => jsParseDecimal other

/-- Floor of a rational (denominator is positive, so Euclidean division
of the numerator floors). -/
def ratFloor (q : ℚ) : Int := Int.ediv q.num (q.den : Int)

/-- JS `Math.round` (round half towards positive infinity), `NaN`-propagating. -/
def jsMathRound (o : Option ℚ) : Option Int :=
  o.map (fun q => ratFloor (q + 1/2))

/-- Product with `NaN` propagation. -/
def optMul (a b : Option ℚ) : Option ℚ :=
  match a, b with
  | some x, some y => some (x * y)
  | _, _ => none

/-- JS `Number.prototype.toString` with `NaN.toString() = "NaN"`. -/
def optIntRepr (o : Option Int) : String :=
  match o with
  | none => "NaN"
  | some n => toString n

/-! ## Stable sort (ECMAScript `Array.prototype.sort` is stable) -/

/-- Insert `x` in front of the first element `y` with `le x y`; used with a
reflexive-on-ties `le` this is the stable insertion step. -/
def insertStable {α : Type} (le : α → α → Bool) (x : α) : List α → List α
  | [] => [x]
  | y :: ys => if le x y then x :: y :: ys else y :: insertStable le x ys

/-- Stable sort: the unique output of any stable sort with a consistent
comparator, hence of the ECMAScript sort. -/
def stableSort {α : Type} (le : α → α → Bool) (l : List α) : List α :=
  l.foldr (insertStable le) []

/-! ## `slot-dimensions.ts` -/

/-- One row of the `SLOT_DIMENSIONS` table. -/
structure SlotDimensions where
  slotType : String
  width : Nat
  depth : Nat
  height : Nat
  volume : Nat
  locationSize : ℚ
deriving DecidableEq

/-- The fixed slot-type table (`SLOT_DIMENSIONS`). -/
def SLOT_DIMENSIONS : List (String × SlotDimensions) :=
  [ ("BLH", ⟨"BLH", 120, 90, 225, 2430000, mkRat 1 1⟩)
  , ("BLN", ⟨"BLN", 240, 180, 350, 15120000, mkRat 1 1⟩)
  , ("BLL", ⟨"BLL", 120, 90, 75, 810000, mkRat 1 2⟩)
  , ("PP5", ⟨"PP5", 52, 90, 90, 421200, mkRat 1 2⟩)
  , ("PP3", ⟨"PP3", 44, 90, 80, 316800, mkRat 1 4⟩)
  , ("PP7", ⟨"PP7", 18, 90, 90, 145800, mkRat 1 4⟩)
  , ("PP9", ⟨"PP9", 30, 90, 20, 54000, mkRat 1 4⟩)
  , ("PK", ⟨"PK", 52, 90, 30, 140400, mkRat 1 4⟩)
  , ("PLK", ⟨"PLK", 52, 90, 30, 140400, mkRat 1 4⟩)
  , ("PLV", ⟨"PLV", 52, 90, 30, 140400, mkRat 1 4⟩) ]

/-- Lookup `getSlotDimensions`: `SLOT_DIMENSIONS[slotType] || null`. -/
def getSlotDimensions (slotType : String) : Option SlotDimensions :=
  mapGet SLOT_DIMENSIONS slotType

/-- Size class `getLocationSize`: `dimensions?.locationSize || 1.0` (the stored sizes
are never `0`, so `|| 1.0` fires exactly when the lookup misses). -/
def getLocationSize (slotType : String) : ℚ :=
  ((getSlotDimensions slotType).map SlotDimensions.locationSize).getD (mkRat 1 1)

/-! ## Input row types (`bay-level-transform.ts`) -/

/-- Row type `ClientLocation` (the fields the core reads). -/
structure ClientLocation where
  warehouse : String
  locationClass : String
  location : String
  area : String
  aisle : String
  bay : String
  slotType : String
  slotTypeDescription : String
deriving DecidableEq

/-- Row type `ClientArticle` (the fields the core reads). -/
structure ClientArticle where
  artikelnummer : String
  artikelomsVerkoop : String
  lengte : String
  breedte : String
  hoogte : String
  picklocatie : String
deriving DecidableEq

/-- Row type `ClientPick` (the fields the core reads). -/
structure ClientPick where
  artikelnummer : String
  locatiecode : String
  aantalBasiseenheden : String
  pickDatumtijd : String
  leverdatum : String
  pickorderNummer : String
  orderType : String
deriving DecidableEq

/-- Rows of type `LocationMapping` produced by `buildLocationMapping`. -/
structure LocationMapping where
  originalLocation : String
  bayLocation : String
  slotType : String
  slotTypeDescription : String
  inLocations : Bool
  inArticles : Bool
  inPicks : Bool
  pickCount : Nat
deriving DecidableEq

/-- Rows of type `BayPick` produced by `aggregatePicksToBayLevel`. -/
structure BayPick where
  pickList : Nat
  location : String
  article : Option Int
  quantity : Option Int
  pickTime : String
  salesOrder : String
  salesOrderCategory : String
  originalPickLocation : String
deriving DecidableEq

/-- Rows of type `BayArticleLocation` (the AllocationRecords). -/
structure BayArticleLocation where
  article : Int
  location : String
  articleDescription : String
  articleCategory : String
  articleVolume : Option Int
  locationSize : ℚ
  locationGroup : String
  remarkOne : String
  remarkTwo : String
  remarkThree : String
  remarkFour : String
  remarkFive : String
  originalPickLocation : String
deriving DecidableEq

/-- Entries of the overflow log (the OverflowRecords). -/
structure OverflowEntry where
  article : Int
  bay : String
  size : ℚ
  pickLocation : String
  pickDate : String
deriving DecidableEq

/-! ## `bay-level-transform.ts` functions -/

/-- Bay code `getBayCode(aisle, bay)`. -/
def getBayCode (aisle bay : String) : String := aisle ++ "-" ++ bay

/-- The bay code synthesised for a pick location missing from the master:
digits of the first `'-'`-segment, joined with the second segment
(`parts[0].replace(/\D/g, '')` and `parts[1]`). -/
def synthBayCode (code : String) : String :=
  let parts := splitChar '-' code.data
  getBayCode (String.mk ((parts.getD 0 []).filter Char.isDigit))
    (String.mk (parts.getD 1 []))

/-- The `LocationMapping` row synthesised for a pick location missing from
the master. -/
def synthMapping (code : String) : LocationMapping :=
  { originalLocation := code
  , bayLocation := synthBayCode code
  , slotType := "UNKNOWN"
  , slotTypeDescription := "Not in master data"
  , inLocations := false
  , inArticles := false
  , inPicks := true
  , pickCount := 1 }

/-- Seed step of `buildLocationMapping`: one entry per location-master row. -/
def blmSeedStep (m : List (String × LocationMapping)) (loc : ClientLocation) :
    List (String × LocationMapping) :=
  mapSet m loc.location
    { originalLocation := loc.location
    , bayLocation := getBayCode loc.aisle loc.bay
    , slotType := jsOr loc.slotType "UNKNOWN"
    , slotTypeDescription := jsOr loc.slotTypeDescription "Unknown"
    , inLocations := true
    , inArticles := false
    , inPicks := false
    , pickCount := 0 }

/-- Article cross-check step of `buildLocationMapping`: mark `inArticles`
on existing entries; unknown references only warn. -/
def blmArticleStep (m : List (String × LocationMapping)) (art : ClientArticle) :
    List (String × LocationMapping) :=
  let pickLoc := jsTrim art.picklocatie
  if pickLoc = "" then m
  else if (mapGet m pickLoc).isSome then
    mapUpdate m pickLoc (fun v => { v with inArticles := true })
  else m

/-- Pick cross-check step of `buildLocationMapping`: count picks on existing
entries, synthesise a mapping for decomposable missing codes. -/
def blmPickStep (m : List (String × LocationMapping)) (pick : ClientPick) :
    List (String × LocationMapping) :=
  let pickLoc := jsTrim pick.locatiecode
  if pickLoc = "" then m
  else
    match mapGet m pickLoc with
    | some _ =>
      mapUpdate m pickLoc (fun v => { v with inPicks := true, pickCount := v.pickCount + 1 })
    | none =>
      if (splitChar '-' pickLoc.data).length ≥ 2 then mapSet m pickLoc (synthMapping pickLoc)
      else m

/-- Function `buildLocationMapping(locations, articles, picks)`. -/
def buildLocationMapping (locations : List ClientLocation) (articles : List ClientArticle)
    (picks : List ClientPick) : List (String × LocationMapping) :=
  picks.foldl blmPickStep (articles.foldl blmArticleStep (locations.foldl blmSeedStep []))

/-- The ordered sequence of slot sizes of a bay's member locations (the
elements of the capacity layout). -/
def layoutSlotSizes (locs : List ClientLocation) : List ℚ :=
  locs.map (fun loc => getLocationSize (jsOr loc.slotType "UNKNOWN"))

/-- Rendering `size.toFixed(2).replace('.', ',')` for the non-negative sizes occurring
in layouts. -/
def toFixedTwoComma (q : ℚ) : String :=
  let n := (ratFloor (q * 100 + 1/2)).toNat
  toString (n / 100) ++ "," ++
    (if n % 100 < 10 then "0" ++ toString (n % 100) else toString (n % 100))

/-- Function `calculateBayCapacityLayout(locations)`: the slot sizes of the member
locations, rendered as European decimals joined by `'-'`. -/
def calculateBayCapacityLayout (locs : List ClientLocation) : String :=
  if locs.isEmpty then ""
  else String.intercalate "-" ((layoutSlotSizes locs).map toFixedTwoComma)

/-- Function `formatPickDate(dateStr)`. -/
def formatPickDate (dateStr : String) : String :=
  let parts := splitChar '-' dateStr.data
  if parts.length = 3 then
    let day := optIntRepr (jsParseIntChars (parts.getD 0 []))
    let month := optIntRepr (jsParseIntChars (parts.getD 1 []))
    let year0 := parts.getD 2 []
    let year := if year0.length = 2 then '2' :: '0' :: year0 else year0
    day ++ "-" ++ month ++ "-" ++ String.mk year
  else dateStr

/-- One step of `aggregatePicksToBayLevel` (`idx` is the position of the
pick in the input array). -/
def aggStep (mapping : List (String × LocationMapping))
    (acc : List (String × List (Option Int × List BayPick))) (ip : Nat × ClientPick) :
    List (String × List (Option Int × List BayPick)) :=
  let pick := ip.2
  let pickLoc := jsTrim pick.locatiecode
  if pickLoc = "" then acc
  else
    match mapGet mapping pickLoc with
    | none => acc
    | some m =>
      let bayCode := m.bayLocation
      let article := jsParseInt pick.artikelnummer
      let datePart := jsOr (String.mk ((splitChar ' ' pick.pickDatumtijd.data).headD []))
        (jsOr pick.leverdatum "")
      let bp : BayPick :=
        { pickList := 10081994 + ip.1
        , location := bayCode
        , article := article
        , quantity := jsParseInt (jsOr pick.aantalBasiseenheden "1")
        , pickTime := formatPickDate datePart
        , salesOrder := jsOr pick.pickorderNummer ""
        , salesOrderCategory := jsOr pick.orderType ""
        , originalPickLocation := pickLoc }
      let inner := (mapGet acc bayCode).getD []
      let lst := (mapGet inner article).getD []
      mapSet acc bayCode (mapSet inner article (lst ++ [bp]))

/-- Function `aggregatePicksToBayLevel(picks, locationMapping)`: bay code → article
(`none` is the shared `NaN` key) → pick rows. -/
def aggregatePicksToBayLevel (picks : List ClientPick)
    (mapping : List (String × LocationMapping)) :
    List (String × List (Option Int × List BayPick)) :=
  picks.enum.foldl (aggStep mapping) []

/-! ## Main transformation script: dates, sort, cap -/

/-- Order-faithful encoding of `new Date(y, m-1, d).getTime()`: month
overflow normalises exactly as in ECMAScript (`y*12 + (m-1)` months), years
0–99 map to 1900–1999, and the encoding is strictly monotone in calendar
order for in-range dates. -/
def jsDateCode (y m d : Int) : Int :=
  let y2 := if 0 ≤ y ∧ y ≤ 99 then y + 1900 else y
  (y2 * 12 + (m - 1)) * 31 + (d - 1)

/-- Time value of `new Date(0)` (1970-01-01). -/
def epochCode : Int := jsDateCode 1970 1 1

/-- Function `parseDateFromPick(dateStr)`: `none` is an invalid date (`NaN`). -/
def parseDateFromPick (dateStr : String) : Option Int :=
  let parts := splitChar '-' ((splitChar ' ' dateStr.data).headD [])
  if parts.length = 3 then
    let day := jsParseIntChars (parts.getD 0 [])
    let month := jsParseIntChars (parts.getD 1 [])
    let year0 := parts.getD 2 []
    let year1 := if year0.length = 2 then '2' :: '0' :: year0 else year0
    match jsParseIntChars year1, month, day with
    | some y, some m, some d => some (jsDateCode y m d)
    | _, _, _ => none
  else some epochCode

/-- The date string the sort derives for a pick:
`pick['Pick datumtijd'] || pick['Leverdatum'] || ''`. -/
def pickDateStr (p : ClientPick) : String :=
  jsOr p.pickDatumtijd (jsOr p.leverdatum "")

/-- The time value the sort compares for a pick. -/
def pickDateVal (p : ClientPick) : Option Int :=
  parseDateFromPick (pickDateStr p)

/-- Relation saying `a` may precede `b` under the comparator
`(a, b) => dateB.getTime() - dateA.getTime()` (descending; a `NaN`
comparison counts as `+0`, i.e. a tie, keeping input order). -/
def pickCmpLe (a b : ClientPick) : Bool :=
  match pickDateVal a, pickDateVal b with
  | some x, some y => decide (y ≤ x)
  | _, _ => true

/-! ## Main transformation script: the pipeline -/

/-- The input dataset of one run (the `MAX_PICKS` cap as a parameter). -/
structure RunInput where
  locations : List ClientLocation
  articles : List ClientArticle
  picks : List ClientPick
  maxPicks : Nat
deriving DecidableEq

/-- Picks filtered to Area-'D' locations (`loc && loc.startsWith('D')`). -/
def picksAreaD (inp : RunInput) : List ClientPick :=
  inp.picks.filter (fun p =>
    let l := jsTrim p.locatiecode
    !(l == "") && jsStartsWith l 'D')

/-- The picks sorted by derived date, descending, ties in input order. -/
def sortedPicksD (inp : RunInput) : List ClientPick :=
  stableSort pickCmpLe (picksAreaD inp)

/-- The most recent `maxPicks` picks: the event stream of the run. -/
def pipelinePicks (inp : RunInput) : List ClientPick :=
  (sortedPicksD inp).take inp.maxPicks

/-- Location-master rows filtered to `Area === 'D'`. -/
def pipelineLocations (inp : RunInput) : List ClientLocation :=
  inp.locations.filter (fun l => l.area == "D")

/-- The location→bay mapping of the run. -/
def pipelineLocationMapping (inp : RunInput) : List (String × LocationMapping) :=
  buildLocationMapping (pipelineLocations inp) inp.articles (pipelinePicks inp)

/-- Group master locations by bay code, preserving observation order. -/
def groupLocationsByBay (locs : List ClientLocation) : List (String × List ClientLocation) :=
  locs.foldl (fun m loc =>
    let bayCode := getBayCode loc.aisle loc.bay
    mapSet m bayCode ((mapGet m bayCode).getD [] ++ [loc])) []

/-- Bay→locations map before synthetic entries. -/
def pipelineBayLocations0 (inp : RunInput) : List (String × List ClientLocation) :=
  groupLocationsByBay (pipelineLocations inp)

/-- The bay-level pick aggregation of the run. -/
def pipelineBayPicks (inp : RunInput) : List (String × List (Option Int × List BayPick)) :=
  aggregatePicksToBayLevel (pipelinePicks inp) (pipelineLocationMapping inp)

/-- Bays appearing in picks but not in the location master. -/
def pipelineMissingBays (inp : RunInput) : List String :=
  (mapKeys (pipelineBayPicks inp)).filter
    (fun bay => !(mapGet (pipelineBayLocations0 inp) bay).isSome)

/-- The synthetic `ClientLocation` created for a missing bay. -/
def syntheticLocation (bayCode : String) : ClientLocation :=
  { warehouse := "85"
  , locationClass := "UNKNOWN"
  , location := bayCode
  , area := ""
  , aisle := (splitOnCharS '-' bayCode).getD 0 ""
  , bay := (splitOnCharS '-' bayCode).getD 1 ""
  , slotType := "UNKNOWN"
  , slotTypeDescription := "Inferred from picks (not in master data)" }

/-- Bay→locations map after synthetic entries are added. -/
def pipelineBayLocations (inp : RunInput) : List (String × List ClientLocation) :=
  (pipelineMissingBays inp).foldl
    (fun m bayCode => mapSet m bayCode [syntheticLocation bayCode])
    (pipelineBayLocations0 inp)

/-- The zero-initialised per-size table (`0.25 ↦ 0, 0.50 ↦ 0, 1.00 ↦ 0`). -/
def sizeZeroTable : List (ℚ × Nat) := [(mkRat 1 4, 0), (mkRat 1 2, 0), (mkRat 1 1, 0)]

/-- One location's contribution to its bay's slot inventory. -/
def bayInvStep (inv : List (ℚ × Nat)) (loc : ClientLocation) : List (ℚ × Nat) :=
  let size := getLocationSize (jsOr loc.slotType "UNKNOWN")
  mapSet inv size ((mapGet inv size).getD 0 + 1)

/-- Per-bay slot inventory: slots available per size class. -/
def bayInventoryOf (locs : List ClientLocation) : List (ℚ × Nat) :=
  locs.foldl bayInvStep sizeZeroTable

/-- Sum of a bay's inventory counts over the three size classes. -/
def invSum (inv : List (ℚ × Nat)) : Nat :=
  (mapGet inv (mkRat 1 4)).getD 0 + (mapGet inv (mkRat 1 2)).getD 0 +
    (mapGet inv (mkRat 1 1)).getD 0

/-- Inventory map `baySlotInventory`: bay code → size → available slots. -/
def pipelineBaySlotInventory (inp : RunInput) : List (String × List (ℚ × Nat)) :=
  (pipelineBayLocations inp).map (fun e => (e.1, bayInventoryOf e.2))

/-- Usage map `slotUsage` before the allocation pass: every bay at zero. -/
def pipelineSlotUsage0 (inp : RunInput) : List (String × List (ℚ × Nat)) :=
  (pipelineBayLocations inp).map (fun e => (e.1, sizeZeroTable))

/-- Article number → article master row (rows with `NaN` numbers dropped). -/
def pipelineArticleMap (inp : RunInput) : List (Int × ClientArticle) :=
  inp.articles.foldl (fun m art =>
    match jsParseInt art.artikelnummer with
    | some n => mapSet m n art
    | none => m) []

/-! ## Main transformation script: the allocation loop -/

/-- The read-only collaborators of the allocation loop. -/
structure AllocEnv where
  locationMapping : List (String × LocationMapping)
  baySlotInventory : List (String × List (ℚ × Nat))
  bayLocations : List (String × List ClientLocation)
  articleMap : List (Int × ClientArticle)
deriving DecidableEq

/-- The mutable state of the allocation loop. `crashed` models the
non-null assertion `slotUsage.get(bayCode)!` failing (a thrown
`TypeError` ends the run). -/
structure AllocState where
  sheet : List BayArticleLocation
  slotUsage : List (String × List (ℚ × Nat))
  assignedPairs : List (Int × String)
  overflowLog : List OverflowEntry
  crashed : Bool
deriving DecidableEq

/-- Lookup `baySlotInventory.get(bayCode)?.get(slotSize) || 0`. -/
def availCount (env : AllocEnv) (bay : String) (size : ℚ) : Nat :=
  ((mapGet env.baySlotInventory bay).bind (fun inv => mapGet inv size)).getD 0

/-- Lookup `slotUsage.get(bayCode)?.get(slotSize) || 0`. -/
def usedCount (st : AllocState) (bay : String) (size : ℚ) : Nat :=
  ((mapGet st.slotUsage bay).bind (fun u => mapGet u size)).getD 0

/-- The `BayArticleLocation` row pushed when a slot is consumed. -/
def mkRecord (env : AllocEnv) (pickLoc : String) (article : Int) (bayCode : String)
    (slotSize : ℚ) : BayArticleLocation :=
  let art := mapGet env.articleMap article
  let articleVolume : Option Int :=
    match art with
    | some a =>
      let l := jsParseFloat (replaceFirstChar (jsOr a.lengte "0") ',' '.')
      let w := jsParseFloat (replaceFirstChar (jsOr a.breedte "0") ',' '.')
      let h := jsParseFloat (replaceFirstChar (jsOr a.hoogte "0") ',' '.')
      jsMathRound (optMul (optMul l w) h)
    | none => some 0
  let bayHead := (mapGet env.bayLocations bayCode).bind List.head?
  let isC : Bool := match bayHead with | some hd => hd.locationClass == "C" | none => false
  let isUnknown : Bool := match bayHead with | some hd => hd.slotType == "UNKNOWN" | none => false
  { article := article
  , location := bayCode
  , articleDescription := match art with | some a => jsOr a.artikelomsVerkoop "" | none => ""
  , articleCategory := ""
  , articleVolume := articleVolume
  , locationSize := slotSize
  , locationGroup := bayCode
  , remarkOne := if isC then "C" else "R"
  , remarkTwo := match art with | some _ => "" | none => "NO_MASTER_DATA"
  , remarkThree := if isC then "" else if isUnknown then "SYNTHETIC_BAY" else ""
  , remarkFour := ""
  , remarkFive := ""
  , originalPickLocation := pickLoc }

/-- The `OverflowEntry` pushed when the bay/size is exhausted. -/
def mkOverflow (pick : ClientPick) (pickLoc : String) (article : Int) (bayCode : String)
    (slotSize : ℚ) : OverflowEntry :=
  { article := article
  , bay := bayCode
  , size := slotSize
  , pickLocation := pickLoc
  , pickDate := jsOr pick.pickDatumtijd "" }

/-- The state after a successful slot consumption: record pushed, usage
incremented, dedup key marked. -/
def consumeState (env : AllocEnv) (st : AllocState) (pickLoc : String) (article : Int)
    (m : LocationMapping) (u : List (ℚ × Nat)) : AllocState :=
  { st with
    sheet := st.sheet ++
      [mkRecord env pickLoc article m.bayLocation (getLocationSize m.slotType)]
  , slotUsage := mapSet st.slotUsage m.bayLocation
      (mapSet u (getLocationSize m.slotType)
        (usedCount st m.bayLocation (getLocationSize m.slotType) + 1))
  , assignedPairs := setAdd st.assignedPairs (article, m.bayLocation) }

/-- The state after the record is pushed but `slotUsage.get(bayCode)!`
throws: the run is aborted. -/
def crashState (env : AllocEnv) (st : AllocState) (pickLoc : String) (article : Int)
    (m : LocationMapping) : AllocState :=
  { st with
    sheet := st.sheet ++
      [mkRecord env pickLoc article m.bayLocation (getLocationSize m.slotType)]
  , crashed := true }

/-- The state after an overflow entry is pushed. -/
def overflowState (st : AllocState) (pick : ClientPick) (pickLoc : String) (article : Int)
    (m : LocationMapping) : AllocState :=
  { st with
    overflowLog := st.overflowLog ++
      [mkOverflow pick pickLoc article m.bayLocation (getLocationSize m.slotType)] }

/-- One iteration of the allocation loop (`picks.forEach`). -/
def allocStep (env : AllocEnv) (st : AllocState) (pick : ClientPick) : AllocState :=
  if st.crashed then st
  else
    let pickLoc := jsTrim pick.locatiecode
    if pickLoc = "" then st
    else if ¬ jsStartsWith pickLoc 'D' then st
    else
      match jsParseInt pick.artikelnummer with
      | none => st
      | some article =>
        match mapGet env.locationMapping pickLoc with
        | none => st
        | some m =>
          if setHas st.assignedPairs (article, m.bayLocation) then st
          else if usedCount st m.bayLocation (getLocationSize m.slotType) <
              availCount env m.bayLocation (getLocationSize m.slotType) then
            match mapGet st.slotUsage m.bayLocation with
            | none => crashState env st pickLoc article m
            | some u => consumeState env st pickLoc article m u
          else overflowState st pick pickLoc article m

/-- The read-only environment of the run. -/
def pipelineEnv (inp : RunInput) : AllocEnv :=
  { locationMapping := pipelineLocationMapping inp
  , baySlotInventory := pipelineBaySlotInventory inp
  , bayLocations := pipelineBayLocations inp
  , articleMap := pipelineArticleMap inp }

/-- The state before the allocation loop. -/
def initAllocState (inp : RunInput) : AllocState :=
  { sheet := []
  , slotUsage := pipelineSlotUsage0 inp
  , assignedPairs := []
  , overflowLog := []
  , crashed := false }

/-- The allocation pass over the run's event stream. -/
def runAllocation (inp : RunInput) : AllocState :=
  (pipelinePicks inp).foldl (allocStep (pipelineEnv inp)) (initAllocState inp)

/-- The `ArticleLocation` sheet (the AllocationRecords, in emission order). -/
def pipelineSheet (inp : RunInput) : List BayArticleLocation :=
  (runAllocation inp).sheet

/-- The overflow log (in emission order). -/
def pipelineOverflow (inp : RunInput) : List OverflowEntry :=
  (runAllocation inp).overflowLog

/-- AllocationRecords emitted for a given bay and size class. -/
def countAlloc (sheet : List BayArticleLocation) (bay : String) (size : ℚ) : Nat :=
  sheet.countP (fun r => decide (r.location = bay ∧ r.locationSize = size))

/-- AllocationRecords emitted for a given (article, bay) pair. -/
def countPair (sheet : List BayArticleLocation) (a : Int) (bay : String) : Nat :=
  sheet.countP (fun r => decide (r.article = a ∧ r.location = bay))

/-- The bay's available-slot count for a size class, as the allocation loop
and the capacity invariant read it. -/
def bayInventoryCount (inp : RunInput) (bay : String) (size : ℚ) : Nat :=
  availCount (pipelineEnv inp) bay size

/-! ## `validate-referential-integrity.ts`, check 6 -/

/-- Severity of a validation issue. -/
inductive Severity where
  | ERROR
  | WARNING
  | INFO
deriving DecidableEq

/-- One `ArticleLocation` row as the validator reads it from the workbook
(`locationSize` is whatever number the cell holds). -/
structure ValRow where
  article : Int
  location : String
  locationSize : ℚ
deriving DecidableEq

/-- A reported validation issue. -/
structure ValidationIssue where
  sheet : String
  severity : Severity
  category : String
  description : String
  count : Nat
  examples : List String
deriving DecidableEq

/-- Check 6's accepted sizes: `const validSizes = [0.25, 0.5, 0.75, 1.0]`. -/
def check6ValidSizes : List ℚ := [mkRat 1 4, mkRat 1 2, mkRat 3 4, mkRat 1 1]

/-- The rows check 6 flags: `!validSizes.includes(al.locationSize)`. -/
def check6Invalid (als : List ValRow) : List ValRow :=
  als.filter (fun al => !(check6ValidSizes.contains al.locationSize))

/-- The example strings of check 6's finding (first five offenders). -/
def check6Examples (inv : List ValRow) : List String :=
  (inv.take 5).map (fun al =>
    "Article " ++ toString al.article ++ " @ " ++ al.location ++ " = " ++ toString al.locationSize)

/-- CHECK 6 (LocationSize Consistency): pushes one WARNING issue exactly
when some row's `locationSize` is outside `check6ValidSizes`. -/
def check6 (als : List ValRow) : Option ValidationIssue :=
  let inv := check6Invalid als
  if inv.length > 0 then
    some
      { sheet := "ArticleLocation"
      , severity := Severity.WARNING
      , category := "Invalid Location Size"
      , description := "locationSize values outside expected range (0.25, 0.50, 0.75, 1.00)"
      , count := inv.length
      , examples := check6Examples inv }
  else none

/-! ## Invariant predicates used by the development -/

/-- Every entry the mapping stores under `code` has the synthesised shape:
bay code from `synthBayCode`, slot type `UNKNOWN` (size class Large),
provenance Synthesized (`inLocations = false`, `inPicks = true`). -/
def SynthShape (code : String) (m : List (String × LocationMapping)) : Prop :=
  ∀ v, mapGet m code = some v →
    v.bayLocation = synthBayCode code ∧ v.slotType = "UNKNOWN" ∧
      v.inLocations = false ∧ v.inPicks = true

/-- The key `k` occurs exactly once if present and never otherwise. -/
def KeyAtMostOnce {κ ν : Type} [DecidableEq κ] (k : κ) (m : List (κ × ν)) : Prop :=
  countKey m k = if (mapGet m k).isSome then 1 else 0

/-! ## Concrete data used by the witnesses and counterexamples -/

/-- A demand event with the given article, location and date. -/
def exPick (art loc date : String) : ClientPick :=
  { artikelnummer := art
  , locatiecode := loc
  , aantalBasiseenheden := "1"
  , pickDatumtijd := date
  , leverdatum := ""
  , pickorderNummer := ""
  , orderType := "" }

/-- A demand event with a parseable pre-1970 date. -/
def pickOld1900 : ClientPick := exPick "1" "D1-001-01" "01-01-1900"

/-- A demand event whose date string is unparsable. -/
def pickGarbageDate : ClientPick := exPick "2" "D1-001-01" "garbage"

/-- A demand event whose location is absent from every master. -/
def zPick : ClientPick := exPick "1" "Z99-14-02" "01-01-2025"

/-- A location-master row in the pick area. -/
def exLocation : ClientLocation :=
  { warehouse := "85"
  , locationClass := "C"
  , location := "D1-001-01"
  , area := "D"
  , aisle := "D1"
  , bay := "001"
  , slotType := "BLH"
  , slotTypeDescription := "Blokpallet hoog" }

/-- A one-location, one-pick dataset. -/
def exInput : RunInput :=
  { locations := [exLocation]
  , articles := []
  , picks := [exPick "7" "D1-001-01" "01-01-2025"]
  , maxPicks := 100000 }

/-- A two-pick dataset whose dates both parse. -/
def exInputTwoDates : RunInput :=
  { locations := [exLocation]
  , articles := []
  , picks := [exPick "7" "D1-001-01" "02-01-2025", exPick "8" "D1-001-01" "01-01-2025"]
  , maxPicks := 100000 }

/-- A dataset whose sort input mixes an unparsable date with a pre-1970 one. -/
def exInputC8 : RunInput :=
  { locations := []
  , articles := []
  , picks := [pickOld1900, pickGarbageDate]
  , maxPicks := 100000 }

/-- An allocation state in which article 7 is already served in bay
`D1-001`. -/
def exServedState : AllocState :=
  { sheet := []
  , slotUsage := [("D1-001", sizeZeroTable)]
  , assignedPairs := [(7, "D1-001")]
  , overflowLog := []
  , crashed := false }

end PickOpt

namespace PickOpt

/-! ## Lemmas about the association-list maps -/

lemma mapGet_mapSet_self {κ ν : Type} [DecidableEq κ] (m : List (κ × ν)) (k : κ) (v : ν) :
    mapGet (mapSet m k v) k = some v := by
  induction m with
  | nil => simp [mapSet, mapGet]
  | cons e rest ih =>
    obtain ⟨a, b⟩ := e
    by_cases h : a = k
    · subst h
      simp [mapSet, mapGet]
    · simp [mapSet, mapGet, h, ih]

lemma mapGet_mapSet_ne {κ ν : Type} [DecidableEq κ] (m : List (κ × ν)) (k k' : κ) (v : ν)
    (h : k' ≠ k) : mapGet (mapSet m k v) k' = mapGet m k' := by
  induction m with
  | nil => simp [mapSet, mapGet, Ne.symm h]
  | cons e rest ih =>
    obtain ⟨a, b⟩ := e
    by_cases ha : a = k
    · subst ha
      simp [mapSet, mapGet, Ne.symm h]
    · simp [mapSet, mapGet, ha, ih]

lemma mapGet_mapUpdate_self {κ ν : Type} [DecidableEq κ] (m : List (κ × ν)) (k : κ)
    (f : ν → ν) : mapGet (mapUpdate m k f) k = (mapGet m k).map f := by
  induction m with
  | nil => simp [mapUpdate, mapGet]
  | cons e rest ih =>
    obtain ⟨a, b⟩ := e
    by_cases h : a = k
    · subst h
      simp [mapUpdate, mapGet]
    · simp [mapUpdate, mapGet, h, ih]

lemma mapGet_mapUpdate_ne {κ ν : Type} [DecidableEq κ] (m : List (κ × ν)) (k k' : κ)
    (f : ν → ν) (h : k' ≠ k) : mapGet (mapUpdate m k f) k' = mapGet m k' := by
  induction m with
  | nil => simp [mapUpdate, mapGet]
  | cons e rest ih =>
    obtain ⟨a, b⟩ := e
    by_cases ha : a = k
    · subst ha
      simp [mapUpdate, mapGet, Ne.symm h]
    · simp [mapUpdate, mapGet, ha, ih]

lemma isSome_mapGet_mapSet {κ ν : Type} [DecidableEq κ] (m : List (κ × ν)) (k k' : κ) (v : ν)
    (h : (mapGet m k').isSome) : (mapGet (mapSet m k v) k').isSome := by
  by_cases he : k' = k
  · subst he
    simp [mapGet_mapSet_self]
  · rwa [mapGet_mapSet_ne m k k' v he]

lemma mapGet_mem {κ ν : Type} [DecidableEq κ] :
    ∀ (m : List (κ × ν)) (k : κ) (v : ν), mapGet m k = some v → (k, v) ∈ m := by
  intro m
  induction m with
  | nil => intro k v h; simp [mapGet] at h
  | cons e rest ih =>
    intro k v h
    obtain ⟨a, b⟩ := e
    by_cases ha : a = k
    · subst ha
      simp [mapGet] at h
      simp [h]
    · simp [mapGet, ha] at h
      exact List.mem_cons_of_mem _ (ih k v h)

lemma mem_mapKeys_of_isSome {κ ν : Type} [DecidableEq κ] :
    ∀ (m : List (κ × ν)) (k : κ), (mapGet m k).isSome → k ∈ mapKeys m := by
  intro m
  induction m with
  | nil => intro k h; simp [mapGet] at h
  | cons e rest ih =>
    intro k h
    obtain ⟨a, b⟩ := e
    by_cases ha : a = k
    · subst ha
      simp [mapKeys]
    · simp [mapGet, ha] at h
      exact List.mem_cons_of_mem _ (ih k h)

lemma mapGet_map_pair {κ ν μ : Type} [DecidableEq κ] (f : κ → ν → μ) :
    ∀ (m : List (κ × ν)) (k : κ),
      mapGet (m.map (fun e => (e.1, f e.1 e.2))) k = (mapGet m k).map (f k) := by
  intro m
  induction m with
  | nil => intro k; simp [mapGet]
  | cons e rest ih =>
    intro k
    obtain ⟨a, b⟩ := e
    by_cases ha : a = k
    · subst ha
      simp [mapGet]
    · simp [mapGet, ha, ih]

lemma countKey_mapSet_isSome {κ ν : Type} [DecidableEq κ] :
    ∀ (m : List (κ × ν)) (k k' : κ) (v : ν), (mapGet m k).isSome →
      countKey (mapSet m k v) k' = countKey m k' := by
  intro m
  induction m with
  | nil => intro k k' v h; simp [mapGet] at h
  | cons e rest ih =>
    intro k k' v h
    obtain ⟨a, b⟩ := e
    by_cases ha : a = k
    · subst ha
      simp [mapSet, countKey, List.countP_cons]
    · simp [mapGet, ha] at h
      simp [mapSet, countKey, List.countP_cons, ha]
      have := ih k k' v h
      simp [countKey] at this
      omega

lemma countKey_mapSet_none {κ ν : Type} [DecidableEq κ] :
    ∀ (m : List (κ × ν)) (k k' : κ) (v : ν), mapGet m k = none →
      countKey (mapSet m k v) k' = countKey m k' + (if k = k' then 1 else 0) := by
  intro m
  induction m with
  | nil => intro k k' v _; simp [mapSet, countKey, List.countP_cons]
  | cons e rest ih =>
    intro k k' v h
    obtain ⟨a, b⟩ := e
    by_cases ha : a = k
    · subst ha
      simp [mapGet] at h
    · simp [mapGet, ha] at h
      simp [mapSet, countKey, List.countP_cons, ha]
      have := ih k k' v h
      simp [countKey] at this
      omega

lemma countKey_mapUpdate {κ ν : Type} [DecidableEq κ] :
    ∀ (m : List (κ × ν)) (k k' : κ) (f : ν → ν),
      countKey (mapUpdate m k f) k' = countKey m k' := by
  intro m
  induction m with
  | nil => intro k k' f; simp [mapUpdate]
  | cons e rest ih =>
    intro k k' f
    obtain ⟨a, b⟩ := e
    by_cases ha : a = k
    · subst ha
      simp [mapUpdate, countKey, List.countP_cons]
    · simp [mapUpdate, countKey, List.countP_cons, ha]
      have := ih k k' f
      simp [countKey] at this
      omega

lemma keyAtMostOnce_nil {κ ν : Type} [DecidableEq κ] (k : κ) :
    KeyAtMostOnce k ([] : List (κ × ν)) := by
  simp [KeyAtMostOnce, countKey, mapGet]

lemma keyAtMostOnce_mapSet {κ ν : Type} [DecidableEq κ] (m : List (κ × ν)) (k k' : κ) (v : ν)
    (h : KeyAtMostOnce k m) : KeyAtMostOnce k (mapSet m k' v) := by
  unfold KeyAtMostOnce at h ⊢
  cases hg : mapGet m k' with
  | some w =>
    rw [countKey_mapSet_isSome m k' k v (by simp [hg])]
    by_cases he : k = k'
    · subst he
      simp [mapGet_mapSet_self, h, hg]
    · rw [mapGet_mapSet_ne m k' k v he]
      exact h
  | none =>
    rw [countKey_mapSet_none m k' k v hg]
    by_cases he : k = k'
    · subst he
      simp [mapGet_mapSet_self, h, hg]
    · rw [mapGet_mapSet_ne m k' k v he]
      simp [Ne.symm he, h]

lemma keyAtMostOnce_mapUpdate {κ ν : Type} [DecidableEq κ] (m : List (κ × ν)) (k k' : κ)
    (f : ν → ν) (h : KeyAtMostOnce k m) : KeyAtMostOnce k (mapUpdate m k' f) := by
  unfold KeyAtMostOnce at h ⊢
  rw [countKey_mapUpdate]
  by_cases he : k = k'
  · subst he
    rw [mapGet_mapUpdate_self]
    cases hg : mapGet m k <;> simp [hg] at h ⊢ <;> exact h
  · rw [mapGet_mapUpdate_ne m k' k f he]
    exact h

lemma setHas_append_single {α : Type} [DecidableEq α] :
    ∀ (l : List α) (a b : α), setHas (l ++ [a]) b = (setHas l b || decide (b = a)) := by
  intro l
  induction l with
  | nil =>
    intro a b
    by_cases h : a = b
    · subst h
      simp [setHas]
    · simp [setHas, h, Ne.symm h]
  | cons c t ih =>
    intro a b
    by_cases hc : c = b
    · simp [setHas, hc]
    · simp [setHas, hc, ih]

lemma setHas_setAdd_self {α : Type} [DecidableEq α] :
    ∀ (l : List α) (a : α), setHas (setAdd l a) a = true := by
  intro l a
  unfold setAdd
  by_cases h : setHas l a = true
  · simp [h]
  · simp only [h, if_false, Bool.false_eq_true]
    rw [setHas_append_single]
    simp

lemma setHas_setAdd_other {α : Type} [DecidableEq α] :
    ∀ (l : List α) (a b : α), b ≠ a → setHas (setAdd l a) b = setHas l b := by
  intro l a b hne
  unfold setAdd
  by_cases h : setHas l a = true
  · simp [h]
  · simp only [h, if_false, Bool.false_eq_true]
    rw [setHas_append_single]
    simp [hne]

/-! ## Lemmas about the stable sort -/

lemma mem_insertStable {α : Type} (le : α → α → Bool) (x : α) :
    ∀ (l : List α) (a : α), a ∈ insertStable le x l ↔ a = x ∨ a ∈ l := by
  intro l
  induction l with
  | nil => intro a; simp [insertStable]
  | cons y ys ih =>
    intro a
    show a ∈ (if le x y = true then x :: y :: ys else y :: insertStable le x ys) ↔ _
    by_cases h : le x y = true
    · rw [if_pos h]
      simp
    · rw [if_neg h]
      simp [ih]
      tauto

lemma insertStable_perm {α : Type} (le : α → α → Bool) (x : α) :
    ∀ (l : List α), (insertStable le x l).Perm (x :: l) := by
  intro l
  induction l with
  | nil => simp [insertStable]
  | cons y ys ih =>
    show (if le x y = true then x :: y :: ys else y :: insertStable le x ys).Perm _
    by_cases h : le x y = true
    · rw [if_pos h]
    · rw [if_neg h]
      exact (ih.cons y).trans (List.Perm.swap x y ys)

lemma stableSort_perm {α : Type} (le : α → α → Bool) :
    ∀ (l : List α), (stableSort le l).Perm l := by
  intro l
  induction l with
  | nil => simp [stableSort]
  | cons a l ih =>
    have : stableSort le (a :: l) = insertStable le a (stableSort le l) := rfl
    rw [this]
    exact (insertStable_perm le a (stableSort le l)).trans (ih.cons a)

lemma pairwise_insertStable {α : Type} {le : α → α → Bool} {P : α → Prop}
    (htot : ∀ a b, P a → P b → le a b = true ∨ le b a = true)
    (htrans : ∀ a b c, P a → P b → P c → le a b = true → le b c = true → le a c = true)
    (x : α) (hx : P x) :
    ∀ (l : List α), (∀ a ∈ l, P a) → l.Pairwise (fun a b => le a b = true) →
      (insertStable le x l).Pairwise (fun a b => le a b = true) := by
  intro l
  induction l with
  | nil => intro _ _; simp [insertStable]
  | cons y ys ih =>
    intro hl hp
    have hy : P y := hl y (by simp)
    have hys : ∀ a ∈ ys, P a := fun a ha => hl a (by simp [ha])
    rw [List.pairwise_cons] at hp
    obtain ⟨hyz, hpys⟩ := hp
    show (if le x y = true then x :: y :: ys else y :: insertStable le x ys).Pairwise _
    by_cases h : le x y = true
    · rw [if_pos h, List.pairwise_cons]
      constructor
      · intro z hz
        rcases List.mem_cons.mp hz with hz | hz
        · subst hz; exact h
        · exact htrans x y z hx hy (hys z hz) h (hyz z hz)
      · rw [List.pairwise_cons]
        exact ⟨hyz, hpys⟩
    · have hyx : le y x = true := by
        rcases htot x y hx hy with h1 | h1
        · exact absurd h1 h
        · exact h1
      rw [if_neg h, List.pairwise_cons]
      constructor
      · intro z hz
        rcases (mem_insertStable le x ys z).mp hz with hz | hz
        · subst hz; exact hyx
        · exact hyz z hz
      · exact ih hys hpys

lemma pairwise_stableSort {α : Type} {le : α → α → Bool} {P : α → Prop}
    (htot : ∀ a b, P a → P b → le a b = true ∨ le b a = true)
    (htrans : ∀ a b c, P a → P b → P c → le a b = true → le b c = true → le a c = true) :
    ∀ (l : List α), (∀ a ∈ l, P a) →
      (stableSort le l).Pairwise (fun a b => le a b = true) := by
  intro l
  induction l with
  | nil => intro _; simp [stableSort]
  | cons a l ih =>
    intro hl
    have : stableSort le (a :: l) = insertStable le a (stableSort le l) := rfl
    rw [this]
    have hmem : ∀ b ∈ stableSort le l, P b := by
      intro b hb
      exact hl b (by simp [(stableSort_perm le l).mem_iff.mp hb])
    exact pairwise_insertStable htot htrans a (hl a (by simp)) (stableSort le l) hmem
      (ih fun b hb => hl b (by simp [hb]))

end PickOpt

namespace PickOpt

/-! ## Lemmas about slot sizes and inventories -/

lemma slotTable_sizes : ∀ e ∈ SLOT_DIMENSIONS,
    e.2.locationSize = mkRat 1 4 ∨ e.2.locationSize = mkRat 1 2 ∨
      e.2.locationSize = mkRat 1 1 := by decide

lemma getLocationSize_cases (s : String) :
    getLocationSize s = mkRat 1 4 ∨ getLocationSize s = mkRat 1 2 ∨
      getLocationSize s = mkRat 1 1 := by
  cases h : getSlotDimensions s with
  | none =>
    right; right
    unfold getLocationSize
    rw [h]
    rfl
  | some d =>
    have hd := slotTable_sizes (s, d) (mapGet_mem SLOT_DIMENSIONS s d h)
    unfold getLocationSize
    rw [h]
    simpa using hd

lemma mapGet_sizeZeroTable (s : ℚ) : (mapGet sizeZeroTable s).getD 0 = 0 := by
  unfold sizeZeroTable mapGet
  split
  · rfl
  · unfold mapGet
    split
    · rfl
    · unfold mapGet
      split
      · rfl
      · rfl

lemma invSum_sizeZeroTable : invSum sizeZeroTable = 0 := by decide

lemma invSum_mapSet_incr (inv : List (ℚ × Nat)) (size : ℚ)
    (h : size = mkRat 1 4 ∨ size = mkRat 1 2 ∨ size = mkRat 1 1) :
    invSum (mapSet inv size ((mapGet inv size).getD 0 + 1)) = invSum inv + 1 := by
  rcases h with h | h | h <;> subst h <;>
    · unfold invSum
      rw [mapGet_mapSet_self]
      repeat rw [mapGet_mapSet_ne _ _ _ _ (by decide)]
      simp
      omega

lemma invSum_bayInvStep (inv : List (ℚ × Nat)) (loc : ClientLocation) :
    invSum (bayInvStep inv loc) = invSum inv + 1 := by
  unfold bayInvStep
  exact invSum_mapSet_incr inv _ (getLocationSize_cases _)

lemma invSum_foldl_bayInvStep :
    ∀ (locs : List ClientLocation) (inv : List (ℚ × Nat)),
      invSum (locs.foldl bayInvStep inv) = invSum inv + locs.length := by
  intro locs
  induction locs with
  | nil => intro inv; simp
  | cons loc rest ih =>
    intro inv
    simp only [List.foldl_cons, List.length_cons]
    rw [ih, invSum_bayInvStep]
    omega

lemma invSum_bayInventoryOf (locs : List ClientLocation) :
    invSum (bayInventoryOf locs) = locs.length := by
  unfold bayInventoryOf
  rw [invSum_foldl_bayInvStep, invSum_sizeZeroTable]
  omega

/-! ## Lemmas about `buildLocationMapping` -/

lemma code_ne_empty_of_parts {code : String}
    (h : (splitChar '-' code.data).length ≥ 2) : code ≠ "" := by
  intro hc
  subst hc
  have : (splitChar '-' ("".data)).length = 1 := by decide
  omega

lemma blmSeed_none (code : String) :
    ∀ (locations : List ClientLocation) (m0 : List (String × LocationMapping)),
      (∀ l ∈ locations, l.location ≠ code) → mapGet m0 code = none →
      mapGet (locations.foldl blmSeedStep m0) code = none := by
  intro locations
  induction locations with
  | nil => intro m0 _ h0; simpa using h0
  | cons loc rest ih =>
    intro m0 habs h0
    simp only [List.foldl_cons]
    refine ih (blmSeedStep m0 loc) (fun l hl => habs l (by simp [hl])) ?_
    unfold blmSeedStep
    rw [mapGet_mapSet_ne _ _ _ _ (Ne.symm (habs loc (by simp)))]
    exact h0

lemma synthShape_blmArticleStep {code : String} (m : List (String × LocationMapping))
    (art : ClientArticle) (h : SynthShape code m) : SynthShape code (blmArticleStep m art) := by
  simp only [blmArticleStep]
  split
  · exact h
  · split
    · intro v hv
      by_cases he : code = jsTrim art.picklocatie
      · rw [← he, mapGet_mapUpdate_self] at hv
        cases hw : mapGet m code with
        | none => rw [hw] at hv; simp at hv
        | some w =>
          rw [hw] at hv
          simp at hv
          obtain ⟨h1, h2, h3, h4⟩ := h w hw
          subst hv
          exact ⟨h1, h2, h3, h4⟩
      · rw [mapGet_mapUpdate_ne _ _ _ _ he] at hv
        exact h v hv
    · exact h

lemma synthShape_blmPickStep {code : String} (m : List (String × LocationMapping))
    (pick : ClientPick) (h : SynthShape code m) : SynthShape code (blmPickStep m pick) := by
  simp only [blmPickStep]
  split
  · exact h
  · split
    · intro v hv
      by_cases he : code = jsTrim pick.locatiecode
      · rw [← he, mapGet_mapUpdate_self] at hv
        cases hw : mapGet m code with
        | none => rw [hw] at hv; simp at hv
        | some w =>
          rw [hw] at hv
          simp at hv
          obtain ⟨h1, h2, h3, h4⟩ := h w hw
          subst hv
          exact ⟨h1, h2, h3, rfl⟩
      · rw [mapGet_mapUpdate_ne _ _ _ _ he] at hv
        exact h v hv
    · split
      · intro v hv
        by_cases he : code = jsTrim pick.locatiecode
        · rw [← he, mapGet_mapSet_self] at hv
          simp only [Option.some_inj] at hv
          subst hv
          subst he
          exact ⟨rfl, rfl, rfl, rfl⟩
        · rw [mapGet_mapSet_ne _ _ _ _ he] at hv
          exact h v hv
      · exact h

lemma synthShape_of_none {code : String} (m : List (String × LocationMapping))
    (h : mapGet m code = none) : SynthShape code m := by
  intro v hv
  rw [h] at hv
  exact absurd hv (by simp)

lemma isSome_blmPickStep (m : List (String × LocationMapping)) (pick : ClientPick)
    (code : String) (h : (mapGet m code).isSome) :
    (mapGet (blmPickStep m pick) code).isSome := by
  simp only [blmPickStep]
  split
  · exact h
  · split
    · by_cases he : code = jsTrim pick.locatiecode
      · rw [← he, mapGet_mapUpdate_self]
        cases hw : mapGet m code with
        | none => rw [hw] at h; simp at h
        | some w => simp
      · rwa [mapGet_mapUpdate_ne _ _ _ _ he]
    · split
      · exact isSome_mapGet_mapSet _ _ _ _ h
      · exact h

lemma isSome_blmPickStep_ref (m : List (String × LocationMapping)) (pick : ClientPick)
    (code : String) (htr : jsTrim pick.locatiecode = code)
    (hdec : (splitChar '-' code.data).length ≥ 2) :
    (mapGet (blmPickStep m pick) code).isSome := by
  simp only [blmPickStep]
  rw [htr]
  rw [if_neg (code_ne_empty_of_parts hdec)]
  cases hw : mapGet m code with
  | some w =>
    rw [mapGet_mapUpdate_self, hw]
    simp
  | none =>
    rw [if_pos hdec]
    rw [mapGet_mapSet_self]
    simp

lemma isSome_foldl_blmPickStep (code : String) :
    ∀ (picks : List ClientPick) (m : List (String × LocationMapping)),
      (mapGet m code).isSome →
      (mapGet (picks.foldl blmPickStep m) code).isSome := by
  intro picks
  induction picks with
  | nil => intro m h; simpa using h
  | cons p rest ih =>
    intro m h
    simp only [List.foldl_cons]
    exact ih _ (isSome_blmPickStep m p code h)

lemma keyAtMostOnce_blmSeedStep (code : String) (m : List (String × LocationMapping))
    (loc : ClientLocation) (h : KeyAtMostOnce code m) :
    KeyAtMostOnce code (blmSeedStep m loc) := keyAtMostOnce_mapSet _ _ _ _ h

lemma keyAtMostOnce_blmArticleStep (code : String) (m : List (String × LocationMapping))
    (art : ClientArticle) (h : KeyAtMostOnce code m) :
    KeyAtMostOnce code (blmArticleStep m art) := by
  simp only [blmArticleStep]
  split
  · exact h
  · split
    · exact keyAtMostOnce_mapUpdate _ _ _ _ h
    · exact h

lemma keyAtMostOnce_blmPickStep (code : String) (m : List (String × LocationMapping))
    (pick : ClientPick) (h : KeyAtMostOnce code m) :
    KeyAtMostOnce code (blmPickStep m pick) := by
  simp only [blmPickStep]
  split
  · exact h
  · split
    · exact keyAtMostOnce_mapUpdate _ _ _ _ h
    · split
      · exact keyAtMostOnce_mapSet _ _ _ _ h
      · exact h

lemma keyAtMostOnce_foldl {α : Type} (code : String)
    (step : List (String × LocationMapping) → α → List (String × LocationMapping))
    (hstep : ∀ m a, KeyAtMostOnce code m → KeyAtMostOnce code (step m a)) :
    ∀ (l : List α) (m : List (String × LocationMapping)),
      KeyAtMostOnce code m → KeyAtMostOnce code (l.foldl step m) := by
  intro l
  induction l with
  | nil => intro m h; simpa using h
  | cons a rest ih =>
    intro m h
    simp only [List.foldl_cons]
    exact ih _ (hstep m a h)

lemma blm_presence (locations : List ClientLocation) (articles : List ClientArticle)
    (picks : List ClientPick) (code : String)
    (href : ∃ p ∈ picks, jsTrim p.locatiecode = code)
    (hdec : (splitChar '-' code.data).length ≥ 2) :
    (mapGet (buildLocationMapping locations articles picks) code).isSome := by
  obtain ⟨p, hp, htr⟩ := href
  obtain ⟨l1, l2, hsplit⟩ := List.append_of_mem hp
  unfold buildLocationMapping
  rw [hsplit, List.foldl_append, List.foldl_cons]
  exact isSome_foldl_blmPickStep code l2 _
    (isSome_blmPickStep_ref _ p code htr hdec)

lemma blm_synthShape (locations : List ClientLocation) (articles : List ClientArticle)
    (picks : List ClientPick) (code : String)
    (habs : ∀ l ∈ locations, l.location ≠ code) :
    SynthShape code (buildLocationMapping locations articles picks) := by
  unfold buildLocationMapping
  have h0 : mapGet (locations.foldl blmSeedStep []) code = none :=
    blmSeed_none code locations [] habs (by simp [mapGet])
  have h1 : SynthShape code (articles.foldl blmArticleStep (locations.foldl blmSeedStep [])) := by
    have := synthShape_of_none _ h0
    clear h0
    generalize locations.foldl blmSeedStep [] = m0 at this ⊢
    induction articles generalizing m0 with
    | nil => simpa using this
    | cons a rest ih =>
      simp only [List.foldl_cons]
      exact ih _ (synthShape_blmArticleStep m0 a this)
  generalize articles.foldl blmArticleStep (locations.foldl blmSeedStep []) = m1 at h1 ⊢
  induction picks generalizing m1 with
  | nil => simpa using h1
  | cons p rest ih =>
    simp only [List.foldl_cons]
    exact ih _ (synthShape_blmPickStep m1 p h1)

lemma blm_keyAtMostOnce (locations : List ClientLocation) (articles : List ClientArticle)
    (picks : List ClientPick) (code : String) :
    KeyAtMostOnce code (buildLocationMapping locations articles picks) := by
  unfold buildLocationMapping
  refine keyAtMostOnce_foldl code blmPickStep (keyAtMostOnce_blmPickStep code) picks _ ?_
  refine keyAtMostOnce_foldl code blmArticleStep (keyAtMostOnce_blmArticleStep code) articles _ ?_
  exact keyAtMostOnce_foldl code blmSeedStep (keyAtMostOnce_blmSeedStep code) locations _
    (keyAtMostOnce_nil code)

end PickOpt


namespace PickOpt

/-! ## Branch-computation lemmas for the allocation step -/

lemma allocStep_of_crashed (env : AllocEnv) (st : AllocState) (pick : ClientPick)
    (hc : st.crashed = true) : allocStep env st pick = st := by
  simp [allocStep, hc]

lemma allocStep_of_empty (env : AllocEnv) (st : AllocState) (pick : ClientPick)
    (hc : st.crashed = false) (h1 : jsTrim pick.locatiecode = "") :
    allocStep env st pick = st := by
  simp [allocStep, hc, h1]

lemma allocStep_of_notD (env : AllocEnv) (st : AllocState) (pick : ClientPick)
    (hc : st.crashed = false) (h1 : jsTrim pick.locatiecode ≠ "")
    (h2 : jsStartsWith (jsTrim pick.locatiecode) 'D' = false) :
    allocStep env st pick = st := by
  simp [allocStep, hc, h1, h2]

lemma allocStep_of_noParse (env : AllocEnv) (st : AllocState) (pick : ClientPick)
    (hc : st.crashed = false) (h1 : jsTrim pick.locatiecode ≠ "")
    (h2 : jsStartsWith (jsTrim pick.locatiecode) 'D' = true)
    (h3 : jsParseInt pick.artikelnummer = none) :
    allocStep env st pick = st := by
  simp [allocStep, hc, h1, h2, h3]

lemma allocStep_of_noMapping (env : AllocEnv) (st : AllocState) (pick : ClientPick)
    (article : Int) (hc : st.crashed = false) (h1 : jsTrim pick.locatiecode ≠ "")
    (h2 : jsStartsWith (jsTrim pick.locatiecode) 'D' = true)
    (h3 : jsParseInt pick.artikelnummer = some article)
    (h4 : mapGet env.locationMapping (jsTrim pick.locatiecode) = none) :
    allocStep env st pick = st := by
  simp [allocStep, hc, h1, h2, h3, h4]

lemma allocStep_of_served (env : AllocEnv) (st : AllocState) (pick : ClientPick)
    (article : Int) (m : LocationMapping) (hc : st.crashed = false)
    (h1 : jsTrim pick.locatiecode ≠ "")
    (h2 : jsStartsWith (jsTrim pick.locatiecode) 'D' = true)
    (h3 : jsParseInt pick.artikelnummer = some article)
    (h4 : mapGet env.locationMapping (jsTrim pick.locatiecode) = some m)
    (h5 : setHas st.assignedPairs (article, m.bayLocation) = true) :
    allocStep env st pick = st := by
  simp [allocStep, hc, h1, h2, h3, h4, h5]

lemma allocStep_of_consume (env : AllocEnv) (st : AllocState) (pick : ClientPick)
    (article : Int) (m : LocationMapping) (u : List (ℚ × Nat)) (hc : st.crashed = false)
    (h1 : jsTrim pick.locatiecode ≠ "")
    (h2 : jsStartsWith (jsTrim pick.locatiecode) 'D' = true)
    (h3 : jsParseInt pick.artikelnummer = some article)
    (h4 : mapGet env.locationMapping (jsTrim pick.locatiecode) = some m)
    (h5 : setHas st.assignedPairs (article, m.bayLocation) = false)
    (h6 : usedCount st m.bayLocation (getLocationSize m.slotType) <
      availCount env m.bayLocation (getLocationSize m.slotType))
    (h7 : mapGet st.slotUsage m.bayLocation = some u) :
    allocStep env st pick = consumeState env st (jsTrim pick.locatiecode) article m u := by
  simp [allocStep, hc, h1, h2, h3, h4, h5, h6, h7]

lemma allocStep_of_crash (env : AllocEnv) (st : AllocState) (pick : ClientPick)
    (article : Int) (m : LocationMapping) (hc : st.crashed = false)
    (h1 : jsTrim pick.locatiecode ≠ "")
    (h2 : jsStartsWith (jsTrim pick.locatiecode) 'D' = true)
    (h3 : jsParseInt pick.artikelnummer = some article)
    (h4 : mapGet env.locationMapping (jsTrim pick.locatiecode) = some m)
    (h5 : setHas st.assignedPairs (article, m.bayLocation) = false)
    (h6 : usedCount st m.bayLocation (getLocationSize m.slotType) <
      availCount env m.bayLocation (getLocationSize m.slotType))
    (h7 : mapGet st.slotUsage m.bayLocation = none) :
    allocStep env st pick = crashState env st (jsTrim pick.locatiecode) article m := by
  simp [allocStep, hc, h1, h2, h3, h4, h5, h6, h7]

lemma allocStep_of_overflow (env : AllocEnv) (st : AllocState) (pick : ClientPick)
    (article : Int) (m : LocationMapping) (hc : st.crashed = false)
    (h1 : jsTrim pick.locatiecode ≠ "")
    (h2 : jsStartsWith (jsTrim pick.locatiecode) 'D' = true)
    (h3 : jsParseInt pick.artikelnummer = some article)
    (h4 : mapGet env.locationMapping (jsTrim pick.locatiecode) = some m)
    (h5 : setHas st.assignedPairs (article, m.bayLocation) = false)
    (h6 : ¬ usedCount st m.bayLocation (getLocationSize m.slotType) <
      availCount env m.bayLocation (getLocationSize m.slotType)) :
    allocStep env st pick = overflowState st pick (jsTrim pick.locatiecode) article m := by
  simp [allocStep, hc, h1, h2, h3, h4, h5, h6]

lemma allocStep_cases (env : AllocEnv) (st : AllocState) (pick : ClientPick)
    (P : AllocState → Prop) (hid : P st)
    (hconsume : ∀ article m u, st.crashed = false → jsTrim pick.locatiecode ≠ "" →
      jsStartsWith (jsTrim pick.locatiecode) 'D' = true →
      jsParseInt pick.artikelnummer = some article →
      mapGet env.locationMapping (jsTrim pick.locatiecode) = some m →
      setHas st.assignedPairs (article, m.bayLocation) = false →
      usedCount st m.bayLocation (getLocationSize m.slotType) <
        availCount env m.bayLocation (getLocationSize m.slotType) →
      mapGet st.slotUsage m.bayLocation = some u →
      P (consumeState env st (jsTrim pick.locatiecode) article m u))
    (hcrash : ∀ article m, st.crashed = false → jsTrim pick.locatiecode ≠ "" →
      jsStartsWith (jsTrim pick.locatiecode) 'D' = true →
      jsParseInt pick.artikelnummer = some article →
      mapGet env.locationMapping (jsTrim pick.locatiecode) = some m →
      setHas st.assignedPairs (article, m.bayLocation) = false →
      usedCount st m.bayLocation (getLocationSize m.slotType) <
        availCount env m.bayLocation (getLocationSize m.slotType) →
      mapGet st.slotUsage m.bayLocation = none →
      P (crashState env st (jsTrim pick.locatiecode) article m))
    (hover : ∀ article m, st.crashed = false → jsTrim pick.locatiecode ≠ "" →
      jsStartsWith (jsTrim pick.locatiecode) 'D' = true →
      jsParseInt pick.artikelnummer = some article →
      mapGet env.locationMapping (jsTrim pick.locatiecode) = some m →
      setHas st.assignedPairs (article, m.bayLocation) = false →
      ¬ usedCount st m.bayLocation (getLocationSize m.slotType) <
        availCount env m.bayLocation (getLocationSize m.slotType) →
      P (overflowState st pick (jsTrim pick.locatiecode) article m)) :
    P (allocStep env st pick) := by
  by_cases hc : st.crashed = true
  · rw [allocStep_of_crashed env st pick hc]
    exact hid
  have hcf : st.crashed = false := by
    revert hc
    cases st.crashed <;> simp
  by_cases h1 : jsTrim pick.locatiecode = ""
  · rw [allocStep_of_empty env st pick hcf h1]
    exact hid
  by_cases h2 : jsStartsWith (jsTrim pick.locatiecode) 'D' = true
  swap
  · have h2f : jsStartsWith (jsTrim pick.locatiecode) 'D' = false := by
      revert h2
      cases jsStartsWith (jsTrim pick.locatiecode) 'D' <;> simp
    rw [allocStep_of_notD env st pick hcf h1 h2f]
    exact hid
  cases h3 : jsParseInt pick.artikelnummer with
  | none =>
    rw [allocStep_of_noParse env st pick hcf h1 h2 h3]
    exact hid
  | some article =>
  cases h4 : mapGet env.locationMapping (jsTrim pick.locatiecode) with
  | none =>
    rw [allocStep_of_noMapping env st pick article hcf h1 h2 h3 h4]
    exact hid
  | some m =>
  by_cases h5 : setHas st.assignedPairs (article, m.bayLocation) = true
  · rw [allocStep_of_served env st pick article m hcf h1 h2 h3 h4 h5]
    exact hid
  have h5f : setHas st.assignedPairs (article, m.bayLocation) = false := by
    revert h5
    cases setHas st.assignedPairs (article, m.bayLocation) <;> simp
  by_cases h6 : usedCount st m.bayLocation (getLocationSize m.slotType) <
      availCount env m.bayLocation (getLocationSize m.slotType)
  · cases h7 : mapGet st.slotUsage m.bayLocation with
    | none =>
      rw [allocStep_of_crash env st pick article m hcf h1 h2 h3 h4 h5f h6 h7]
      exact hcrash article m hcf h1 h2 h3 h4 h5f h6 h7
    | some u =>
      rw [allocStep_of_consume env st pick article m u hcf h1 h2 h3 h4 h5f h6 h7]
      exact hconsume article m u hcf h1 h2 h3 h4 h5f h6 h7
  · rw [allocStep_of_overflow env st pick article m hcf h1 h2 h3 h4 h5f h6]
    exact hover article m hcf h1 h2 h3 h4 h5f h6

end PickOpt



namespace PickOpt

/-! ## Counting lemmas for the allocation invariants -/

lemma mkRecord_location (env : AllocEnv) (pickLoc : String) (article : Int) (bayCode : String)
    (slotSize : ℚ) : (mkRecord env pickLoc article bayCode slotSize).location = bayCode := rfl

lemma mkRecord_locationSize (env : AllocEnv) (pickLoc : String) (article : Int)
    (bayCode : String) (slotSize : ℚ) :
    (mkRecord env pickLoc article bayCode slotSize).locationSize = slotSize := rfl

lemma mkRecord_article (env : AllocEnv) (pickLoc : String) (article : Int) (bayCode : String)
    (slotSize : ℚ) : (mkRecord env pickLoc article bayCode slotSize).article = article := rfl

lemma countAlloc_append (sheet : List BayArticleLocation) (r : BayArticleLocation)
    (b : String) (s : ℚ) :
    countAlloc (sheet ++ [r]) b s =
      countAlloc sheet b s + (if r.location = b ∧ r.locationSize = s then 1 else 0) := by
  simp [countAlloc, List.countP_append, List.countP_cons]

lemma countPair_append (sheet : List BayArticleLocation) (r : BayArticleLocation)
    (a : Int) (bay : String) :
    countPair (sheet ++ [r]) a bay =
      countPair sheet a bay + (if r.article = a ∧ r.location = bay then 1 else 0) := by
  simp [countPair, List.countP_append, List.countP_cons]

lemma usedCount_of_none (st : AllocState) (bay : String) (s : ℚ)
    (h : mapGet st.slotUsage bay = none) : usedCount st bay s = 0 := by
  unfold usedCount
  rw [h]
  rfl

lemma usedVal_set (su : List (String × List (ℚ × Nat))) (bay : String) (sz : ℚ)
    (u : List (ℚ × Nat)) (n : Nat) (hu : mapGet su bay = some u) (b : String) (s : ℚ) :
    ((mapGet (mapSet su bay (mapSet u sz n)) b).bind (fun v => mapGet v s)).getD 0 =
      if bay = b ∧ sz = s then n
      else ((mapGet su b).bind (fun v => mapGet v s)).getD 0 := by
  by_cases hb : bay = b
  · subst hb
    by_cases hs : sz = s
    · subst hs
      rw [if_pos ⟨rfl, rfl⟩, mapGet_mapSet_self]
      simp only [Option.some_bind]
      rw [mapGet_mapSet_self]
      rfl
    · rw [if_neg (by simp [hs]), mapGet_mapSet_self]
      simp only [Option.some_bind]
      rw [mapGet_mapSet_ne _ _ _ _ (fun hss => hs hss.symm), hu]
      simp only [Option.some_bind]
  · rw [if_neg (by simp [hb]), mapGet_mapSet_ne _ _ _ _ (fun hbb => hb hbb.symm)]

lemma usedCount_consumeState (env : AllocEnv) (st : AllocState) (pickLoc : String)
    (article : Int) (m : LocationMapping) (u : List (ℚ × Nat))
    (hu : mapGet st.slotUsage m.bayLocation = some u) (b : String) (s : ℚ) :
    usedCount (consumeState env st pickLoc article m u) b s =
      if m.bayLocation = b ∧ getLocationSize m.slotType = s then
        usedCount st m.bayLocation (getLocationSize m.slotType) + 1
      else usedCount st b s := by
  have hslot : (consumeState env st pickLoc article m u).slotUsage =
      mapSet st.slotUsage m.bayLocation (mapSet u (getLocationSize m.slotType)
        (usedCount st m.bayLocation (getLocationSize m.slotType) + 1)) := rfl
  unfold usedCount
  rw [hslot]
  exact usedVal_set st.slotUsage m.bayLocation (getLocationSize m.slotType) u _ hu b s

lemma usedCount_init (inp : RunInput) (b : String) (s : ℚ) :
    usedCount (initAllocState inp) b s = 0 := by
  have hslot : (initAllocState inp).slotUsage = pipelineSlotUsage0 inp := rfl
  unfold usedCount
  rw [hslot]
  have hmg : mapGet (pipelineSlotUsage0 inp) b =
      (mapGet (pipelineBayLocations inp) b).map (fun _ => sizeZeroTable) := by
    unfold pipelineSlotUsage0
    exact mapGet_map_pair (fun _ _ => sizeZeroTable) (pipelineBayLocations inp) b
  rw [hmg]
  cases mapGet (pipelineBayLocations inp) b with
  | none => rfl
  | some locs => exact mapGet_sizeZeroTable s

/-! ## Invariant preservation through one allocation step -/

lemma allocStep_capacity (env : AllocEnv) (st : AllocState) (pick : ClientPick)
    (h : ∀ b s, (st.crashed = false → countAlloc st.sheet b s = usedCount st b s) ∧
      countAlloc st.sheet b s ≤ availCount env b s) :
    ∀ b s, ((allocStep env st pick).crashed = false →
        countAlloc (allocStep env st pick).sheet b s = usedCount (allocStep env st pick) b s) ∧
      countAlloc (allocStep env st pick).sheet b s ≤ availCount env b s := by
  refine allocStep_cases env st pick
    (fun st2 => ∀ b s, (st2.crashed = false → countAlloc st2.sheet b s = usedCount st2 b s) ∧
      countAlloc st2.sheet b s ≤ availCount env b s) h ?_ ?_ ?_
  · intro article m u hc h1 h2 h3 h4 h5 h6 h7
    intro b s
    have hsheet : (consumeState env st (jsTrim pick.locatiecode) article m u).sheet =
        st.sheet ++ [mkRecord env (jsTrim pick.locatiecode) article m.bayLocation
          (getLocationSize m.slotType)] := rfl
    have heq := (h b s).1 hc
    have hle := (h b s).2
    constructor
    · intro _
      rw [hsheet, countAlloc_append, mkRecord_location, mkRecord_locationSize]
      rw [usedCount_consumeState env st _ article m u h7 b s]
      by_cases hbs : m.bayLocation = b ∧ getLocationSize m.slotType = s
      · rw [if_pos hbs, if_pos hbs]
        obtain ⟨hb1, hb2⟩ := hbs
        subst hb1
        subst hb2
        omega
      · rw [if_neg hbs, if_neg hbs]
        omega
    · rw [hsheet, countAlloc_append, mkRecord_location, mkRecord_locationSize]
      by_cases hbs : m.bayLocation = b ∧ getLocationSize m.slotType = s
      · rw [if_pos hbs]
        obtain ⟨hb1, hb2⟩ := hbs
        subst hb1
        subst hb2
        omega
      · rw [if_neg hbs]
        omega
  · intro article m hc h1 h2 h3 h4 h5 h6 h7
    intro b s
    have hsheet : (crashState env st (jsTrim pick.locatiecode) article m).sheet =
        st.sheet ++ [mkRecord env (jsTrim pick.locatiecode) article m.bayLocation
          (getLocationSize m.slotType)] := rfl
    have heq := (h b s).1 hc
    have hle := (h b s).2
    have h0 : usedCount st m.bayLocation (getLocationSize m.slotType) = 0 :=
      usedCount_of_none st _ _ h7
    constructor
    · intro hcontra
      exact absurd hcontra (by simp [crashState])
    · rw [hsheet, countAlloc_append, mkRecord_location, mkRecord_locationSize]
      by_cases hbs : m.bayLocation = b ∧ getLocationSize m.slotType = s
      · rw [if_pos hbs]
        obtain ⟨hb1, hb2⟩ := hbs
        subst hb1
        subst hb2
        omega
      · rw [if_neg hbs]
        omega
  · intro article m hc h1 h2 h3 h4 h5 h6
    intro b s
    exact h b s

lemma allocStep_pairBound (env : AllocEnv) (st : AllocState) (pick : ClientPick)
    (h : ∀ a bay, countPair st.sheet a bay ≤
      (if st.crashed = true then 1 else
        if setHas st.assignedPairs (a, bay) = true then 1 else 0)) :
    ∀ a bay, countPair (allocStep env st pick).sheet a bay ≤
      (if (allocStep env st pick).crashed = true then 1 else
        if setHas (allocStep env st pick).assignedPairs (a, bay) = true then 1 else 0) := by
  have hb1 : ∀ a bay, countPair st.sheet a bay ≤ 1 := by
    intro a bay
    refine le_trans (h a bay) ?_
    split
    · omega
    split <;> omega
  refine allocStep_cases env st pick
    (fun st2 => ∀ a bay, countPair st2.sheet a bay ≤
      (if st2.crashed = true then 1 else
        if setHas st2.assignedPairs (a, bay) = true then 1 else 0)) h ?_ ?_ ?_
  · intro article m u hc h1 h2 h3 h4 h5 h6 h7
    intro a bay
    have hsheet : (consumeState env st (jsTrim pick.locatiecode) article m u).sheet =
        st.sheet ++ [mkRecord env (jsTrim pick.locatiecode) article m.bayLocation
          (getLocationSize m.slotType)] := rfl
    have hcr2 : (consumeState env st (jsTrim pick.locatiecode) article m u).crashed =
        st.crashed := rfl
    have hpairs : (consumeState env st (jsTrim pick.locatiecode) article m u).assignedPairs =
        setAdd st.assignedPairs (article, m.bayLocation) := rfl
    rw [hsheet, hcr2, hpairs, hc, countPair_append, mkRecord_article, mkRecord_location]
    simp only [Bool.false_eq_true, if_false]
    by_cases hab : article = a ∧ m.bayLocation = bay
    · rw [if_pos hab]
      obtain ⟨ha1, ha2⟩ := hab
      subst ha1
      subst ha2
      rw [if_pos (setHas_setAdd_self st.assignedPairs (article, m.bayLocation))]
      have hcount := h article m.bayLocation
      rw [hc] at hcount
      simp only [Bool.false_eq_true, if_false] at hcount
      rw [if_neg (by simp [h5])] at hcount
      omega
    · rw [if_neg hab]
      have hdiff : (a, bay) ≠ (article, m.bayLocation) := by
        intro he
        injection he with he1 he2
        exact hab ⟨he1.symm, he2.symm⟩
      rw [setHas_setAdd_other st.assignedPairs (article, m.bayLocation) (a, bay) hdiff]
      have hcount := h a bay
      rw [hc] at hcount
      simp only [Bool.false_eq_true, if_false] at hcount
      omega
  · intro article m hc h1 h2 h3 h4 h5 h6 h7
    intro a bay
    have hsheet : (crashState env st (jsTrim pick.locatiecode) article m).sheet =
        st.sheet ++ [mkRecord env (jsTrim pick.locatiecode) article m.bayLocation
          (getLocationSize m.slotType)] := rfl
    have hcr2 : (crashState env st (jsTrim pick.locatiecode) article m).crashed = true := rfl
    rw [hsheet, hcr2, if_pos rfl, countPair_append, mkRecord_article, mkRecord_location]
    by_cases hab : article = a ∧ m.bayLocation = bay
    · rw [if_pos hab]
      obtain ⟨ha1, ha2⟩ := hab
      subst ha1
      subst ha2
      have hcount := h article m.bayLocation
      rw [hc] at hcount
      simp only [Bool.false_eq_true, if_false] at hcount
      rw [if_neg (by simp [h5])] at hcount
      omega
    · rw [if_neg hab]
      have := hb1 a bay
      omega
  · intro article m hc h1 h2 h3 h4 h5 h6
    intro a bay
    have hsheet : (overflowState st pick (jsTrim pick.locatiecode) article m).sheet =
        st.sheet := rfl
    have hcr2 : (overflowState st pick (jsTrim pick.locatiecode) article m).crashed =
        st.crashed := rfl
    have hpairs : (overflowState st pick (jsTrim pick.locatiecode) article m).assignedPairs =
        st.assignedPairs := rfl
    rw [hsheet, hcr2, hpairs]
    exact h a bay

end PickOpt

namespace PickOpt

/-! ## Reachable bays have usage entries (the non-null assertion chain) -/

lemma aggStep_mono (mapping : List (String × LocationMapping))
    (acc : List (String × List (Option Int × List BayPick))) (ip : Nat × ClientPick)
    (k : String) (h : (mapGet acc k).isSome) : (mapGet (aggStep mapping acc ip) k).isSome := by
  simp only [aggStep]
  split
  · exact h
  split
  · exact h
  · exact isSome_mapGet_mapSet _ _ _ _ h

lemma aggStep_adds (mapping : List (String × LocationMapping))
    (acc : List (String × List (Option Int × List BayPick))) (ip : Nat × ClientPick)
    (m : LocationMapping) (h1 : jsTrim ip.2.locatiecode ≠ "")
    (h2 : mapGet mapping (jsTrim ip.2.locatiecode) = some m) :
    (mapGet (aggStep mapping acc ip) m.bayLocation).isSome := by
  simp only [aggStep]
  rw [if_neg h1]
  simp only [h2]
  rw [mapGet_mapSet_self]
  rfl

lemma agg_fold_mono (mapping : List (String × LocationMapping)) :
    ∀ (l : List (Nat × ClientPick)) (acc : List (String × List (Option Int × List BayPick)))
      (k : String), (mapGet acc k).isSome →
      (mapGet (l.foldl (aggStep mapping) acc) k).isSome := by
  intro l
  induction l with
  | nil => intro acc k h; simpa using h
  | cons hd tl ih =>
    intro acc k h
    simp only [List.foldl_cons]
    exact ih _ k (aggStep_mono mapping acc hd k h)

lemma agg_fold_adds (mapping : List (String × LocationMapping)) :
    ∀ (l : List (Nat × ClientPick)) (acc : List (String × List (Option Int × List BayPick)))
      (i : Nat) (p : ClientPick) (m : LocationMapping), (i, p) ∈ l →
      jsTrim p.locatiecode ≠ "" → mapGet mapping (jsTrim p.locatiecode) = some m →
      (mapGet (l.foldl (aggStep mapping) acc) m.bayLocation).isSome := by
  intro l
  induction l with
  | nil => intro acc i p m hm; simp at hm
  | cons hd tl ih =>
    intro acc i p m hm h1 h2
    simp only [List.foldl_cons]
    rcases List.mem_cons.mp hm with he | he
    · subst he
      exact agg_fold_mono mapping tl _ m.bayLocation (aggStep_adds mapping acc (i, p) m h1 h2)
    · exact ih _ i p m he h1 h2

lemma exists_enumFrom_of_mem {α : Type} :
    ∀ (l : List α) (p : α), p ∈ l → ∀ n, ∃ i, (i, p) ∈ l.enumFrom n := by
  intro l
  induction l with
  | nil => intro p hp; simp at hp
  | cons a t ih =>
    intro p hp n
    rcases List.mem_cons.mp hp with h | h
    · subst h
      exact ⟨n, by simp [List.enumFrom]⟩
    · obtain ⟨i, hi⟩ := ih p h (n + 1)
      exact ⟨i, by simp [List.enumFrom, hi]⟩

lemma agg_presence (picks : List ClientPick) (mapping : List (String × LocationMapping))
    (p : ClientPick) (m : LocationMapping) (hp : p ∈ picks)
    (h1 : jsTrim p.locatiecode ≠ "") (h2 : mapGet mapping (jsTrim p.locatiecode) = some m) :
    (mapGet (aggregatePicksToBayLevel picks mapping) m.bayLocation).isSome := by
  obtain ⟨i, hi⟩ := exists_enumFrom_of_mem picks p hp 0
  unfold aggregatePicksToBayLevel
  have he : picks.enum = picks.enumFrom 0 := rfl
  rw [he]
  exact agg_fold_adds mapping (picks.enumFrom 0) [] i p m hi h1 h2

lemma foldl_mapSet_mono {κ ν : Type} [DecidableEq κ] (g : κ → ν) :
    ∀ (l : List κ) (m0 : List (κ × ν)) (k : κ), (mapGet m0 k).isSome →
      (mapGet (l.foldl (fun m x => mapSet m x (g x)) m0) k).isSome := by
  intro l
  induction l with
  | nil => intro m0 k h; simpa using h
  | cons a t ih =>
    intro m0 k h
    simp only [List.foldl_cons]
    exact ih _ k (isSome_mapGet_mapSet m0 a k (g a) h)

lemma foldl_mapSet_mem {κ ν : Type} [DecidableEq κ] (g : κ → ν) :
    ∀ (l : List κ) (m0 : List (κ × ν)) (k : κ), k ∈ l →
      (mapGet (l.foldl (fun m x => mapSet m x (g x)) m0) k).isSome := by
  intro l
  induction l with
  | nil => intro m0 k h; simp at h
  | cons a t ih =>
    intro m0 k h
    simp only [List.foldl_cons]
    rcases List.mem_cons.mp h with he | he
    · subst he
      refine foldl_mapSet_mono g t _ k ?_
      rw [mapGet_mapSet_self]
      rfl
    · exact ih _ k he

lemma bayLoc_of_bayPicks (inp : RunInput) (k : String)
    (h : (mapGet (pipelineBayPicks inp) k).isSome) :
    (mapGet (pipelineBayLocations inp) k).isSome := by
  unfold pipelineBayLocations
  by_cases h0 : (mapGet (pipelineBayLocations0 inp) k).isSome
  · exact foldl_mapSet_mono (fun bc => [syntheticLocation bc]) _ _ k h0
  · refine foldl_mapSet_mem (fun bc => [syntheticLocation bc]) _ _ k ?_
    unfold pipelineMissingBays
    rw [List.mem_filter]
    refine ⟨mem_mapKeys_of_isSome _ k h, ?_⟩
    simp only [Bool.not_eq_true'] at h0 ⊢
    simp at h0
    simp [h0]

lemma slotUsage0_of_bayLoc (inp : RunInput) (k : String)
    (h : (mapGet (pipelineBayLocations inp) k).isSome) :
    (mapGet (pipelineSlotUsage0 inp) k).isSome := by
  have hmg : mapGet (pipelineSlotUsage0 inp) k =
      (mapGet (pipelineBayLocations inp) k).map (fun _ => sizeZeroTable) := by
    unfold pipelineSlotUsage0
    exact mapGet_map_pair (fun _ _ => sizeZeroTable) (pipelineBayLocations inp) k
  rw [hmg]
  cases hx : mapGet (pipelineBayLocations inp) k with
  | none => rw [hx] at h; simp at h
  | some locs => rfl

lemma allocStep_keys (env : AllocEnv) (st : AllocState) (pick : ClientPick) (k : String)
    (h : (mapGet st.slotUsage k).isSome) :
    (mapGet (allocStep env st pick).slotUsage k).isSome := by
  refine allocStep_cases env st pick (fun st2 => (mapGet st2.slotUsage k).isSome) h ?_ ?_ ?_
  · intro article m u _ _ _ _ _ _ _ _
    have hslot : (consumeState env st (jsTrim pick.locatiecode) article m u).slotUsage =
        mapSet st.slotUsage m.bayLocation (mapSet u (getLocationSize m.slotType)
          (usedCount st m.bayLocation (getLocationSize m.slotType) + 1)) := rfl
    rw [hslot]
    exact isSome_mapGet_mapSet _ _ _ _ h
  · intro article m _ _ _ _ _ _ _ _
    exact h
  · intro article m _ _ _ _ _ _ _
    exact h

lemma allocStep_crashFree (inp : RunInput) (st : AllocState) (pick : ClientPick)
    (hp : pick ∈ pipelinePicks inp) (hc : st.crashed = false)
    (hk : ∀ b, (mapGet (pipelineSlotUsage0 inp) b).isSome →
      (mapGet st.slotUsage b).isSome) :
    (allocStep (pipelineEnv inp) st pick).crashed = false := by
  refine allocStep_cases (pipelineEnv inp) st pick (fun st2 => st2.crashed = false) hc ?_ ?_ ?_
  · intro article m u hc2 _ _ _ _ _ _ _
    exact hc2
  · intro article m hc2 h1 h2 h3 h4 h5 h6 h7
    exfalso
    have hmap : mapGet (pipelineLocationMapping inp) (jsTrim pick.locatiecode) = some m := h4
    have hag := agg_presence (pipelinePicks inp) (pipelineLocationMapping inp) pick m hp h1 hmap
    have hbl := bayLoc_of_bayPicks inp m.bayLocation hag
    have hsu := slotUsage0_of_bayLoc inp m.bayLocation hbl
    have hfin := hk m.bayLocation hsu
    rw [h7] at hfin
    simp at hfin
  · intro article m hc2 _ _ _ _ _ _
    exact hc2

lemma allocFold_inv (inp : RunInput) :
    ∀ (l : List ClientPick) (st : AllocState), (∀ q ∈ l, q ∈ pipelinePicks inp) →
      st.crashed = false →
      (∀ b, (mapGet (pipelineSlotUsage0 inp) b).isSome → (mapGet st.slotUsage b).isSome) →
      (l.foldl (allocStep (pipelineEnv inp)) st).crashed = false ∧
        (∀ b, (mapGet (pipelineSlotUsage0 inp) b).isSome →
          (mapGet (l.foldl (allocStep (pipelineEnv inp)) st).slotUsage b).isSome) := by
  intro l
  induction l with
  | nil => intro st _ hc hk; exact ⟨hc, hk⟩
  | cons p t ih =>
    intro st hmem hc hk
    simp only [List.foldl_cons]
    refine ih _ (fun q hq => hmem q (by simp [hq])) ?_ ?_
    · exact allocStep_crashFree inp st p (hmem p (by simp)) hc hk
    · intro b hb
      exact allocStep_keys _ st p b (hk b hb)

lemma alloc_noCrash (inp : RunInput) : (runAllocation inp).crashed = false := by
  unfold runAllocation
  exact (allocFold_inv inp (pipelinePicks inp) (initAllocState inp)
    (fun q hq => hq) rfl (fun b hb => hb)).1

lemma crash_absorb (env : AllocEnv) :
    ∀ (l : List ClientPick) (st : AllocState), st.crashed = true →
      (l.foldl (allocStep env) st).crashed = true := by
  intro l
  induction l with
  | nil => intro st h; simpa using h
  | cons p t ih =>
    intro st h
    simp only [List.foldl_cons]
    rw [allocStep_of_crashed env st p h]
    exact ih st h

lemma allocFold_capacity (env : AllocEnv) :
    ∀ (l : List ClientPick) (st : AllocState),
      (∀ b s, (st.crashed = false → countAlloc st.sheet b s = usedCount st b s) ∧
        countAlloc st.sheet b s ≤ availCount env b s) →
      ∀ b s, ((l.foldl (allocStep env) st).crashed = false →
          countAlloc (l.foldl (allocStep env) st).sheet b s =
            usedCount (l.foldl (allocStep env) st) b s) ∧
        countAlloc (l.foldl (allocStep env) st).sheet b s ≤ availCount env b s := by
  intro l
  induction l with
  | nil => intro st h; exact h
  | cons p t ih =>
    intro st h
    simp only [List.foldl_cons]
    exact ih _ (allocStep_capacity env st p h)

lemma allocFold_pairBound (env : AllocEnv) :
    ∀ (l : List ClientPick) (st : AllocState),
      (∀ a bay, countPair st.sheet a bay ≤
        (if st.crashed = true then 1 else
          if setHas st.assignedPairs (a, bay) = true then 1 else 0)) →
      ∀ a bay, countPair (l.foldl (allocStep env) st).sheet a bay ≤
        (if (l.foldl (allocStep env) st).crashed = true then 1 else
          if setHas (l.foldl (allocStep env) st).assignedPairs (a, bay) = true then 1
          else 0) := by
  intro l
  induction l with
  | nil => intro st h; exact h
  | cons p t ih =>
    intro st h
    simp only [List.foldl_cons]
    exact ih _ (allocStep_pairBound env st p h)

end PickOpt

namespace PickOpt

/-! ## Comparator lemmas for the date sort -/

lemma pickCmpLe_total (a b : ClientPick) (ha : (pickDateVal a).isSome = true)
    (hb : (pickDateVal b).isSome = true) :
    pickCmpLe a b = true ∨ pickCmpLe b a = true := by
  obtain ⟨x, hx⟩ := Option.isSome_iff_exists.mp ha
  obtain ⟨y, hy⟩ := Option.isSome_iff_exists.mp hb
  simp only [pickCmpLe, hx, hy]
  rcases Int.le_total x y with h | h
  · right
    simpa using h
  · left
    simpa using h

lemma pickCmpLe_trans (a b c : ClientPick) (ha : (pickDateVal a).isSome = true)
    (hb : (pickDateVal b).isSome = true) (hc : (pickDateVal c).isSome = true)
    (hab : pickCmpLe a b = true) (hbc : pickCmpLe b c = true) : pickCmpLe a c = true := by
  obtain ⟨x, hx⟩ := Option.isSome_iff_exists.mp ha
  obtain ⟨y, hy⟩ := Option.isSome_iff_exists.mp hb
  obtain ⟨z, hz⟩ := Option.isSome_iff_exists.mp hc
  simp only [pickCmpLe, hx, hy] at hab
  simp only [pickCmpLe, hy, hz] at hbc
  simp only [pickCmpLe, hx, hz]
  simp at hab hbc ⊢
  omega

/-! ## The claims -/

/-- C1 (confirmed).  Capacity invariant: for every run of the allocation
pass over any input — including adversarial inputs whose events far exceed
capacity — and for every bay code and size class, the number of
AllocationRecords emitted with that bay and size class is at most that
bay's inventory count for that size class. -/
theorem claimC1_capacity_invariant (inp : RunInput) (bay : String) (size : ℚ) :
    countAlloc (pipelineSheet inp) bay size ≤ bayInventoryCount inp bay size := by
  have hbase : ∀ b s, ((initAllocState inp).crashed = false →
      countAlloc (initAllocState inp).sheet b s = usedCount (initAllocState inp) b s) ∧
      countAlloc (initAllocState inp).sheet b s ≤ availCount (pipelineEnv inp) b s := by
    intro b s
    constructor
    · intro _
      rw [usedCount_init]
      rfl
    · exact Nat.zero_le _
  exact (allocFold_capacity (pipelineEnv inp) (pipelinePicks inp) (initAllocState inp)
    hbase bay size).2

/-- C4 (confirmed).  At most one AllocationRecord is emitted per
(article, bay) pair, and an event whose (article, bay) pair is already
served is skipped outright: no AllocationRecord, no OverflowRecord, and no
state change at all. -/
theorem claimC4_dedup :
    (∀ (inp : RunInput) (a : Int) (bay : String), countPair (pipelineSheet inp) a bay ≤ 1) ∧
    (∀ (env : AllocEnv) (st : AllocState) (p : ClientPick) (a : Int) (m : LocationMapping),
      st.crashed = false → jsTrim p.locatiecode ≠ "" →
      jsStartsWith (jsTrim p.locatiecode) 'D' = true →
      jsParseInt p.artikelnummer = some a →
      mapGet env.locationMapping (jsTrim p.locatiecode) = some m →
      setHas st.assignedPairs (a, m.bayLocation) = true →
      allocStep env st p = st) := by
  constructor
  · intro inp a bay
    have hbase : ∀ (a2 : Int) (bay2 : String),
        countPair (initAllocState inp).sheet a2 bay2 ≤
          (if (initAllocState inp).crashed = true then 1 else
            if setHas (initAllocState inp).assignedPairs (a2, bay2) = true then 1 else 0) := by
      intro a2 bay2
      exact Nat.zero_le _
    have hall := allocFold_pairBound (pipelineEnv inp) (pipelinePicks inp)
      (initAllocState inp) hbase a bay
    refine le_trans hall ?_
    split
    · omega
    split <;> omega
  · intro env st p a m hc h1 h2 h3 h4 h5
    exact allocStep_of_served env st p a m hc h1 h2 h3 h4 h5

/-- Witness for C4 at a concrete state: the bound holds on the example run,
and a pick whose (article, bay) pair is already in `assignedPairs` leaves
the state untouched. -/
theorem claimC4_witness :
    countPair (pipelineSheet exInput) 7 "D1-001" ≤ 1 ∧
    allocStep (pipelineEnv exInput) exServedState (exPick "7" "D1-001-01" "01-01-2025") =
      exServedState :=
  ⟨claimC4_dedup.1 exInput 7 "D1-001",
   claimC4_dedup.2 (pipelineEnv exInput) exServedState (exPick "7" "D1-001-01" "01-01-2025") 7
     ⟨"D1-001-01", "D1-001", "BLH", "Blokpallet hoog", true, false, true, 1⟩
     (by decide) (by decide) (by decide) (by decide) (by decide) (by decide)⟩

/-- C5 (confirmed).  Completeness: every event of the capped stream whose
raw location resolves to a known bay ends in exactly one of the three
outcomes — an AllocationRecord is pushed, an OverflowRecord is pushed, or
the event is an already-served skip (state unchanged, with its pair already
marked served).  The three disjuncts are mutually exclusive: the first
grows the sheet, the second grows the overflow log and keeps the sheet,
the third changes nothing. -/
theorem claimC5_completeness (inp : RunInput) (l1 l2 : List ClientPick) (p : ClientPick)
    (a : Int) (m : LocationMapping)
    (hsplit : pipelinePicks inp = l1 ++ p :: l2)
    (h1 : jsTrim p.locatiecode ≠ "")
    (h2 : jsStartsWith (jsTrim p.locatiecode) 'D' = true)
    (h3 : jsParseInt p.artikelnummer = some a)
    (h4 : mapGet (pipelineLocationMapping inp) (jsTrim p.locatiecode) = some m) :
    let st := l1.foldl (allocStep (pipelineEnv inp)) (initAllocState inp)
    let st2 := allocStep (pipelineEnv inp) st p
    (st2.sheet.length = st.sheet.length + 1 ∧ st2.overflowLog = st.overflowLog) ∨
    (st2.overflowLog.length = st.overflowLog.length + 1 ∧ st2.sheet = st.sheet) ∨
    (st2 = st ∧ setHas st.assignedPairs (a, m.bayLocation) = true) := by
  intro st st2
  have hmap : mapGet (pipelineEnv inp).locationMapping (jsTrim p.locatiecode) = some m := h4
  have hcr : st.crashed = false := by
    by_contra hcc
    have hc1 : st.crashed = true := by
      revert hcc
      cases st.crashed <;> simp
    have habs : (runAllocation inp).crashed = true := by
      unfold runAllocation
      rw [hsplit, List.foldl_append]
      simp only [List.foldl_cons]
      apply crash_absorb
      rw [allocStep_of_crashed _ _ _ hc1]
      exact hc1
    rw [alloc_noCrash inp] at habs
    exact absurd habs (by simp)
  by_cases h5 : setHas st.assignedPairs (a, m.bayLocation) = true
  · right; right
    exact ⟨allocStep_of_served _ st p a m hcr h1 h2 h3 hmap h5, h5⟩
  have h5f : setHas st.assignedPairs (a, m.bayLocation) = false := by
    revert h5
    cases setHas st.assignedPairs (a, m.bayLocation) <;> simp
  by_cases h6 : usedCount st m.bayLocation (getLocationSize m.slotType) <
      availCount (pipelineEnv inp) m.bayLocation (getLocationSize m.slotType)
  · cases h7 : mapGet st.slotUsage m.bayLocation with
    | none =>
      left
      show (allocStep (pipelineEnv inp) st p).sheet.length = _ ∧
        (allocStep (pipelineEnv inp) st p).overflowLog = _
      rw [allocStep_of_crash _ st p a m hcr h1 h2 h3 hmap h5f h6 h7]
      exact ⟨by simp [crashState], rfl⟩
    | some u =>
      left
      show (allocStep (pipelineEnv inp) st p).sheet.length = _ ∧
        (allocStep (pipelineEnv inp) st p).overflowLog = _
      rw [allocStep_of_consume _ st p a m u hcr h1 h2 h3 hmap h5f h6 h7]
      exact ⟨by simp [consumeState], rfl⟩
  · right; left
    show (allocStep (pipelineEnv inp) st p).overflowLog.length = _ ∧
      (allocStep (pipelineEnv inp) st p).sheet = _
    rw [allocStep_of_overflow _ st p a m hcr h1 h2 h3 hmap h5f h6]
    exact ⟨by simp [overflowState], rfl⟩

/-- Witness for C5 at a concrete one-pick run. -/
theorem claimC5_witness :
    let st := ([] : List ClientPick).foldl (allocStep (pipelineEnv exInput))
      (initAllocState exInput)
    let st2 := allocStep (pipelineEnv exInput) st (exPick "7" "D1-001-01" "01-01-2025")
    (st2.sheet.length = st.sheet.length + 1 ∧ st2.overflowLog = st.overflowLog) ∨
    (st2.overflowLog.length = st.overflowLog.length + 1 ∧ st2.sheet = st.sheet) ∨
    (st2 = st ∧ setHas st.assignedPairs
      (7, LocationMapping.bayLocation
        ⟨"D1-001-01", "D1-001", "BLH", "Blokpallet hoog", true, false, true, 1⟩) = true) :=
  claimC5_completeness exInput [] [] (exPick "7" "D1-001-01" "01-01-2025") 7
    ⟨"D1-001-01", "D1-001", "BLH", "Blokpallet hoog", true, false, true, 1⟩
    (by decide) (by decide) (by decide) (by decide) (by decide)

/-- C6 (confirmed).  Determinism: the allocation pass is a pure function of
its input, so two runs over identical input (same events in the same order,
same cap, same masters) produce identical AllocationRecord sequences and
identical OverflowRecord sequences, ordering included. -/
theorem claimC6_determinism (inp1 inp2 : RunInput) (h : inp1 = inp2) :
    pipelineSheet inp1 = pipelineSheet inp2 ∧
      pipelineOverflow inp1 = pipelineOverflow inp2 := by
  subst h
  exact ⟨rfl, rfl⟩

/-- Witness for C6 at a concrete input. -/
theorem claimC6_witness :
    pipelineSheet exInput = pipelineSheet exInput ∧
      pipelineOverflow exInput = pipelineOverflow exInput :=
  claimC6_determinism exInput exInput rfl

/-- C7 (confirmed).  Inventory conservation: for every bay the inventory
builder produced — synthetic bays included — the sum of the inventory
counts over the three size classes equals the number of elements of the
bay's capacity layout (the per-location slot-size sequence that
`calculateBayCapacityLayout` renders joined with dashes). -/
theorem claimC7_inventory_conservation (inp : RunInput) (bay : String)
    (inv : List (ℚ × Nat)) (h : mapGet (pipelineBaySlotInventory inp) bay = some inv) :
    ∃ locs, mapGet (pipelineBayLocations inp) bay = some locs ∧
      invSum inv = (layoutSlotSizes locs).length := by
  have hmg : mapGet (pipelineBaySlotInventory inp) bay =
      (mapGet (pipelineBayLocations inp) bay).map (fun locs => bayInventoryOf locs) := by
    unfold pipelineBaySlotInventory
    exact mapGet_map_pair (fun _ locs => bayInventoryOf locs) (pipelineBayLocations inp) bay
  rw [hmg] at h
  cases hx : mapGet (pipelineBayLocations inp) bay with
  | none =>
    rw [hx] at h
    simp at h
  | some locs =>
    rw [hx] at h
    simp at h
    refine ⟨locs, rfl, ?_⟩
    rw [← h, invSum_bayInventoryOf]
    simp [layoutSlotSizes]

/-- Witness for C7 at the example bay. -/
theorem claimC7_witness :
    ∃ locs, mapGet (pipelineBayLocations exInput) "D1-001" = some locs ∧
      invSum [(mkRat 1 4, 0), (mkRat 1 2, 0), (mkRat 1 1, 1)] =
        (layoutSlotSizes locs).length :=
  claimC7_inventory_conservation exInput "D1-001"
    [(mkRat 1 4, 0), (mkRat 1 2, 0), (mkRat 1 1, 1)] (by decide)

/-- C10 (confirmed).  The non-null assertion `slotUsage.get(bayCode)!` never
fires: every bay reachable from a resolvable pick has a usage-table entry
(synthetic bays are added before the pass), so no run of the allocation
pass crashes. -/
theorem claimC10_usage_lookup_total (inp : RunInput) :
    (runAllocation inp).crashed = false :=
  alloc_noCrash inp

/-- C2 counterexample.  For the raw code `"Z99-14-02"` the resolver
synthesises bay code `"99-14"` (digits of the first segment joined with the
second segment), not `"Z99-14"` as the claim states. -/
theorem claimC2_counterexample :
    (mapGet (buildLocationMapping [] [] [zPick]) "Z99-14-02").map
        LocationMapping.bayLocation = some "99-14" ∧
    ¬ (mapGet (buildLocationMapping [] [] [zPick]) "Z99-14-02").map
        LocationMapping.bayLocation = some "Z99-14" := by decide

/-- C2 amended.  For every demand event whose raw location code is absent
from the location master and contains at least one separator, the resolver
synthesises a mapping entry whose bay code is the digits of the code's
first `'-'`-segment joined with the second segment (for `"Z99-14-02"` this
is `"99-14"`, not `"Z99-14"`), with slot type `UNKNOWN` — hence size class
Large (1.0) — and provenance Synthesized (`inLocations = false`,
`inPicks = true`). -/
theorem claimC2_amended_synthesis (locations : List ClientLocation)
    (articles : List ClientArticle) (picks : List ClientPick) (code : String)
    (habs : ∀ l ∈ locations, l.location ≠ code)
    (href : ∃ p ∈ picks, jsTrim p.locatiecode = code)
    (hdec : (splitChar '-' code.data).length ≥ 2) :
    ∃ v, mapGet (buildLocationMapping locations articles picks) code = some v ∧
      v.bayLocation = synthBayCode code ∧ v.slotType = "UNKNOWN" ∧
      getLocationSize v.slotType = mkRat 1 1 ∧ v.inLocations = false ∧
      v.inPicks = true := by
  have hpres := blm_presence locations articles picks code href hdec
  obtain ⟨v, hv⟩ := Option.isSome_iff_exists.mp hpres
  obtain ⟨hb, hs, hl, hp⟩ := blm_synthShape locations articles picks code habs v hv
  refine ⟨v, hv, hb, hs, ?_, hl, hp⟩
  rw [hs]
  decide

/-- Witness for C2 at the concrete code `"Z99-14-02"`. -/
theorem claimC2_witness :
    ∃ v, mapGet (buildLocationMapping [] [] [zPick]) "Z99-14-02" = some v ∧
      v.bayLocation = synthBayCode "Z99-14-02" ∧ v.slotType = "UNKNOWN" ∧
      getLocationSize v.slotType = mkRat 1 1 ∧ v.inLocations = false ∧
      v.inPicks = true :=
  claimC2_amended_synthesis [] [] [zPick] "Z99-14-02" (by decide) (by decide) (by decide)

/-- C9 (confirmed).  Synthesis is idempotent: a raw code absent from the
location master and referenced by at least one decomposable demand event
has exactly one entry in the mapping — no matter how many events reference
it — and later events only mark it (`inPicks`, `pickCount`); they never
replace its synthesised bay code, slot type or provenance. -/
theorem claimC9_synthesis_idempotent (locations : List ClientLocation)
    (articles : List ClientArticle) (picks : List ClientPick) (code : String)
    (habs : ∀ l ∈ locations, l.location ≠ code)
    (href : ∃ p ∈ picks, jsTrim p.locatiecode = code)
    (hdec : (splitChar '-' code.data).length ≥ 2) :
    countKey (buildLocationMapping locations articles picks) code = 1 ∧
    ∀ v, mapGet (buildLocationMapping locations articles picks) code = some v →
      v.bayLocation = synthBayCode code ∧ v.slotType = "UNKNOWN" ∧
      v.inLocations = false := by
  constructor
  · have hpres := blm_presence locations articles picks code href hdec
    have hk := blm_keyAtMostOnce locations articles picks code
    unfold KeyAtMostOnce at hk
    rw [hk, if_pos hpres]
  · intro v hv
    obtain ⟨hb, hs, hl, _⟩ := blm_synthShape locations articles picks code habs v hv
    exact ⟨hb, hs, hl⟩

/-- Witness for C9 at a concrete input where two events reference the same
missing code. -/
theorem claimC9_witness :
    countKey (buildLocationMapping [] [] [zPick, zPick]) "Z99-14-02" = 1 ∧
    ∀ v, mapGet (buildLocationMapping [] [] [zPick, zPick]) "Z99-14-02" = some v →
      v.bayLocation = synthBayCode "Z99-14-02" ∧ v.slotType = "UNKNOWN" ∧
      v.inLocations = false :=
  claimC9_synthesis_idempotent [] [] [zPick, zPick] "Z99-14-02"
    (by decide) (by decide) (by decide)

/-- C3 counterexample.  A record whose size class is 0.75 — which is none
of the three defined classes — is NOT reported by check 6: the check's
accepted list is `[0.25, 0.5, 0.75, 1.0]`, so `check6` returns no finding
at all on such a record. -/
theorem claimC3_counterexample :
    check6 [{ article := 7, location := "D1-001", locationSize := mkRat 3 4 }] = none ∧
    ¬ (mkRat 3 4 = mkRat 1 4 ∨ mkRat 3 4 = mkRat 1 2 ∨ mkRat 3 4 = mkRat 1 1) := by decide

/-- C3 amended.  Check 6 flags, in a single WARNING finding, exactly the
records whose size class is outside the four accepted values
{0.25, 0.5, 0.75, 1.0}; in particular a record with size class 0.75 is
accepted, not flagged. -/
theorem claimC3_amended_check6 (als : List ValRow) (al : ValRow) (hmem : al ∈ als)
    (hinv : check6ValidSizes.contains al.locationSize = false) :
    al ∈ check6Invalid als ∧
      ∃ iss, check6 als = some iss ∧ iss.severity = Severity.WARNING ∧
        iss.count = (check6Invalid als).length := by
  have hmem2 : al ∈ check6Invalid als := by
    unfold check6Invalid
    rw [List.mem_filter]
    refine ⟨hmem, ?_⟩
    rw [hinv]
    rfl
  refine ⟨hmem2, ?_⟩
  have hlen : (check6Invalid als).length > 0 :=
    List.length_pos.mpr (List.ne_nil_of_mem hmem2)
  simp only [check6]
  rw [if_pos hlen]
  exact ⟨_, rfl, rfl, rfl⟩

/-- Witness for C3 at a record with size class 0.3. -/
theorem claimC3_witness :
    (⟨7, "D1-001", mkRat 3 10⟩ : ValRow) ∈
        check6Invalid [⟨7, "D1-001", mkRat 3 10⟩] ∧
      ∃ iss, check6 [(⟨7, "D1-001", mkRat 3 10⟩ : ValRow)] = some iss ∧
        iss.severity = Severity.WARNING ∧
        iss.count = (check6Invalid [(⟨7, "D1-001", mkRat 3 10⟩ : ValRow)]).length :=
  claimC3_amended_check6 [⟨7, "D1-001", mkRat 3 10⟩] ⟨7, "D1-001", mkRat 3 10⟩
    (by decide) (by decide)

/-- C8 counterexample.  An event with the unparsable date `"garbage"` is
assigned the epoch (1970-01-01), but an event with the parseable date
`"01-01-1900"` encodes strictly earlier than the epoch, so the descending
sort places the unparsable event BEFORE the parseable one — the unparsable
event is not processed after every parseable-dated event of its batch. -/
theorem claimC8_counterexample :
    pickDateVal pickOld1900 = some (jsDateCode 1900 1 1) ∧
    pickDateVal pickGarbageDate = some epochCode ∧
    jsDateCode 1900 1 1 < epochCode ∧
    sortedPicksD exInputC8 = [pickGarbageDate, pickOld1900] := by decide

/-- C8 amended.  An event whose date string does not split into three
dash-separated parts is assigned the defined epoch date (1970-01-01) rather
than causing a failure; the sort drops no event (it permutes its input);
and when every event of the batch has a parseable numeric date the sorted
stream is pairwise descending, so the epoch-dated events are processed
after every event dated on or after 1970-01-01 — but before events with
parseable pre-1970 dates, which is what the original claim missed. -/
theorem claimC8_amended_date_fallback :
    (∀ s : String, (splitChar '-' ((splitChar ' ' s.data).headD [])).length ≠ 3 →
      parseDateFromPick s = some epochCode) ∧
    (∀ inp : RunInput, (sortedPicksD inp).Perm (picksAreaD inp)) ∧
    (∀ inp : RunInput, (∀ p ∈ picksAreaD inp, (pickDateVal p).isSome = true) →
      (sortedPicksD inp).Pairwise (fun a b => pickCmpLe a b = true)) := by
  refine ⟨?_, ?_, ?_⟩
  · intro s h
    simp only [parseDateFromPick]
    rw [if_neg h]
  · intro inp
    exact stableSort_perm pickCmpLe (picksAreaD inp)
  · intro inp hall
    exact pairwise_stableSort pickCmpLe_total pickCmpLe_trans (picksAreaD inp) hall

/-- Witness for C8: the fallback at `"garbage"`, the permutation property
on a concrete batch, and the descending order on an all-parseable batch. -/
theorem claimC8_witness :
    parseDateFromPick "garbage" = some epochCode ∧
    (sortedPicksD exInputC8).Perm (picksAreaD exInputC8) ∧
    (sortedPicksD exInputTwoDates).Pairwise (fun a b => pickCmpLe a b = true) :=
  ⟨claimC8_amended_date_fallback.1 "garbage" (by decide),
   claimC8_amended_date_fallback.2.1 exInputC8,
   claimC8_amended_date_fallback.2.2 exInputTwoDates (by decide)⟩

end PickOpt
